/-
Verification of the Pipe Sizing & Friction-Loss Engine
(`src/thermal_toolkit/fluid_flow.py`) against its specification.

The Python module computes with IEEE floats; we embed the formulas over ℝ.
Python-level exceptions (`ZeroDivisionError` raised by `float / 0.0`,
`ValueError` for unknown lookup keys, `KeyError` for a dict miss,
`UnboundLocalError` for a variable never assigned) are modelled with
`Except PyError`.  NumPy scalar operations do NOT raise on division by
zero (they produce `inf`/`nan`); only true-Python float divisions are
modelled as fallible.  Where a NumPy `nan` flows into a comparison the
comparison is `False`; the one place this matters
(`optimal_pipe_diameter` with `flow_rate = 0`, where `D = 0` makes
`v_actual` a `nan`) is modelled by guarding the comparison with `D ≠ 0`.
-/
import Mathlib

namespace ThermalToolkit

open Topology

/-! ## Constants and lookup tables (module level data of `fluid_flow.py`) -/

/-- `WATER_RHO = 998.0` kg/m³, water density at 20 °C. -/
def WATER_RHO : ℝ := 998.0

/-- `WATER_MU = 1.002e-3` Pa·s, water dynamic viscosity at 20 °C. -/
def WATER_MU : ℝ := 1.002e-3

/-- The `PIPE_ROUGHNESS` dict: material name → absolute roughness [m]. -/
def PIPE_ROUGHNESS (material : String) : Option ℝ :=
  if material = "commercial_steel" then some 0.000045
  else if material = "pvc" then some 0.0000015
  else if material = "copper" then some 0.0000015
  else if material = "cast_iron" then some 0.00026
  else if material = "galvanized_steel" then some 0.00015
  else if material = "concrete" then some 0.0003
  else none

/-- `STANDARD_DN`: the ordered catalog of standard nominal diameters [mm]. -/
def STANDARD_DN : List ℤ := [15, 20, 25, 32, 40, 50, 65, 80, 100, 125, 150, 200, 250, 300]

/-- The `K_values` dict inside `minor_loss_coefficient`:
fitting type → loss coefficient K. -/
def K_lookup (fitting_type : String) : Option ℝ :=
  if fitting_type = "90_elbow" then some 0.9
  else if fitting_type = "45_elbow" then some 0.4
  else if fitting_type = "tee_branch" then some 1.8
  else if fitting_type = "tee_line" then some 0.9
  else if fitting_type = "gate_valve_open" then some 0.2
  else if fitting_type = "globe_valve_open" then some 10.0
  else if fitting_type = "check_valve" then some 2.5
  else if fitting_type = "entrance_sharp" then some 0.5
  else if fitting_type = "entrance_rounded" then some 0.05
  else if fitting_type = "exit" then some 1.0
  else none

/-- Python exception kinds that the module can raise. `invalidInput` is the
typed error the spec postulates; the source never raises it, the constructor
exists so that statements about it can be written down. -/
inductive PyError where
  | zeroDivisionError
  | valueError
  | keyError
  | unboundLocalError
  | invalidInput
  deriving DecidableEq

/-! ## Pure formula layer -/

/-- `reynolds_number`: `Re = rho * velocity * diameter / mu`. -/
noncomputable def reynolds_number (velocity diameter rho mu : ℝ) : ℝ :=
  rho * velocity * diameter / mu

/-- `friction_factor_laminar`: `f = 64.0 / Re`.
(The Python float division raises `ZeroDivisionError` at `Re = 0`;
that is modelled in `friction_factorE` below.) -/
noncomputable def friction_factor_laminar (Re : ℝ) : ℝ :=
  64.0 / Re

/-- The `method` argument of `friction_factor_turbulent`
(`'swamee-jain'` / `'colebrook-white'`; any other string raises
`ValueError`, a path none of the claims exercise). -/
inductive FFMethod where
  | swameeJain
  | colebrookWhite
  deriving DecidableEq

/-- One Colebrook–White fixed-point substitution:
`f_new = 1.0 / (-2.0 * log10(rel_rough/3.7 + 2.51/(Re*sqrt(f))))**2`. -/
noncomputable def cwStep (Re relative_roughness f : ℝ) : ℝ :=
  1.0 / ((-2.0) * Real.logb 10 (relative_roughness / 3.7 + 2.51 / (Re * Real.sqrt f))) ^ 2

/-- The `for _ in range(n)` loop of the Colebrook–White branch: compute
`f_new`, `break` (returning the previous iterate) once `|f_new - f| < 1e-6`,
otherwise continue with `f = f_new`; when the budget is exhausted the last
computed value is returned. -/
noncomputable def cwLoop (Re relative_roughness : ℝ) : ℕ → ℝ → ℝ
  | 0, f => f
  | n + 1, f =>
    let f_new := cwStep Re relative_roughness f
    if |f_new - f| < 1e-6 then f else cwLoop Re relative_roughness n f_new

/-- `friction_factor_turbulent`: Swamee–Jain explicit correlation, or the
Colebrook–White fixed-point iteration seeded with the Swamee–Jain value and
run for at most 10 iterations. -/
noncomputable def friction_factor_turbulent (Re roughness diameter : ℝ)
    (method : FFMethod) : ℝ :=
  let relative_roughness := roughness / diameter
  match method with
  | .swameeJain =>
      0.25 / Real.logb 10 (relative_roughness / 3.7 + 5.74 / Re ^ (0.9 : ℝ)) ^ 2
  | .colebrookWhite =>
      cwLoop Re relative_roughness 10
        (0.25 / Real.logb 10 (relative_roughness / 3.7 + 5.74 / Re ^ (0.9 : ℝ)) ^ 2)

/-- `friction_factor`: regime dispatch.
`Re < 2300` laminar, `Re > 4000` turbulent, otherwise linear interpolation
between the laminar value at 2300 and the turbulent value at 4000. -/
noncomputable def friction_factor (Re roughness diameter : ℝ) (method : FFMethod) : ℝ :=
  if Re < 2300 then
    friction_factor_laminar Re
  else if Re > 4000 then
    friction_factor_turbulent Re roughness diameter method
  else
    let f_lam := friction_factor_laminar 2300
    let f_turb := friction_factor_turbulent 4000 roughness diameter method
    f_lam + (f_turb - f_lam) * (Re - 2300) / (4000 - 2300)

/-- The `details` dict returned by `pressure_drop_darcy_weisbach`. -/
structure DWDetails where
  Re : ℝ
  f : ℝ
  regime : String
  velocity : ℝ
  diameter : ℝ
  length : ℝ

/-- `pressure_drop_darcy_weisbach` (pure value; its Python-exception
behaviour is refined in `pressure_drop_darcy_weisbachE`).  The friction
factor is computed with the default method `'swamee-jain'`. -/
noncomputable def pressure_drop_darcy_weisbach
    (velocity length diameter roughness rho mu : ℝ) : ℝ × DWDetails :=
  let Re := reynolds_number velocity diameter rho mu
  let regime := if Re < 2300 then "laminar" else if Re > 4000 then "turbulent"
    else "transitional"
  let f := friction_factor Re roughness diameter .swameeJain
  let dP := f * (length / diameter) * (rho * velocity ^ 2 / 2)
  (dP, ⟨Re, f, regime, velocity, diameter, length⟩)

/-- `pressure_drop_minor_losses`: `ΔP = K_total * (rho * v² / 2)`. -/
noncomputable def pressure_drop_minor_losses (velocity K_total rho : ℝ) : ℝ :=
  K_total * (rho * velocity ^ 2 / 2)

/-- `optimal_pipe_diameter`.  `D = sqrt(4Q/(π v_target))` and
`v_actual = 4Q/(π D²)`; the velocity is clamped to `[v_min, v_max]` with a
warning.  In NumPy, when `D = 0` (i.e. `flow_rate = 0`) `v_actual` is `nan`
and both comparisons are `False`; the `D ≠ 0` guard encodes exactly that. -/
noncomputable def optimal_pipe_diameter (flow_rate v_min v_max v_target : ℝ) : ℝ × ℝ :=
  let D := Real.sqrt (4 * flow_rate / (Real.pi * v_target))
  let v_actual := 4 * flow_rate / (Real.pi * D ^ 2)
  if D ≠ 0 ∧ v_actual < v_min then
    (Real.sqrt (4 * flow_rate / (Real.pi * v_min)), v_min)
  else if D ≠ 0 ∧ v_actual > v_max then
    (Real.sqrt (4 * flow_rate / (Real.pi * v_max)), v_max)
  else
    (D, v_actual)

/-! ## Python-exception layer -/

/-- `minor_loss_coefficient`: dict lookup, raising `ValueError` on an
unknown fitting type. -/
def minor_loss_coefficient (fitting_type : String) : Except PyError ℝ :=
  match K_lookup fitting_type with
  | some K => .ok K
  | none => .error .valueError

/-- The accumulator loop of `equivalent_length`:
`L_eq += quantity * K * diameter / f_typical` with `f_typical = 0.02`. -/
noncomputable def equivalent_lengthGo (diameter : ℝ) :
    List (String × ℕ) → ℝ → Except PyError ℝ
  | [], acc => .ok acc
  | p :: rest, acc =>
    match minor_loss_coefficient p.1 with
    | .error e => .error e
    | .ok K => equivalent_lengthGo diameter rest (acc + (p.2 : ℝ) * K * diameter / 0.02)

/-- `equivalent_length`: fittings (as an insertion-ordered association list,
matching Python's dict iteration order) to equivalent straight length. -/
noncomputable def equivalent_length (fittings : List (String × ℕ)) (diameter : ℝ) :
    Except PyError ℝ :=
  equivalent_lengthGo diameter fittings 0

/-- Python's `min(xs, key=...)`: scan keeping the current best, replacing it
only on a strictly smaller key, so the FIRST minimiser wins. -/
noncomputable def minByKey (key : ℤ → ℝ) : ℤ → List ℤ → ℤ
  | b, [] => b
  | b, x :: xs => minByKey key (if key x < key b then x else b) xs

/-- The `min(STANDARD_DN, key=lambda x: abs(x - D_calc_mm))` selection. -/
noncomputable def nearestDN (D_calc_mm : ℝ) : ℤ :=
  match STANDARD_DN with
  | [] => 0
  | x :: xs => minByKey (fun d => |(d : ℝ) - D_calc_mm|) x xs

/-- `select_standard_pipe`.  For any schedule other than `'schedule_40'`
neither `D_internal` nor `D_external` is ever assigned and the `return`
statement raises `UnboundLocalError`. -/
noncomputable def select_standard_pipe (diameter_calculated : ℝ) (schedule : String) :
    Except PyError (ℤ × ℝ × ℝ) :=
  let D_calc_mm := diameter_calculated * 1000
  let DN := nearestDN D_calc_mm
  if schedule = "schedule_40" then
    let wall_thickness : ℝ := if DN ≤ 50 then 3.0 else if DN ≤ 100 then 4.0 else 6.0
    .ok (DN, ((DN : ℝ) - 2 * wall_thickness) / 1000, (DN : ℝ) / 1000)
  else
    .error .unboundLocalError

/-- `friction_factor` with the Python float-division exceptions:
`64.0 / Re` raises at `Re = 0`; in the non-laminar branches the first
operation is the float division `roughness / diameter`, raising at
`diameter = 0`.  (All remaining turbulent arithmetic is NumPy-scalar and
never raises.) -/
noncomputable def friction_factorE (Re roughness diameter : ℝ) : Except PyError ℝ :=
  if Re < 2300 then
    if Re = 0 then .error .zeroDivisionError else .ok (friction_factor_laminar Re)
  else if diameter = 0 then .error .zeroDivisionError
  else .ok (friction_factor Re roughness diameter .swameeJain)

/-- `pressure_drop_darcy_weisbach` with Python float-division exceptions:
`Re` raises at `mu = 0`, the friction factor as in `friction_factorE`, and
`length / diameter` raises at `diameter = 0`. -/
noncomputable def pressure_drop_darcy_weisbachE
    (velocity length diameter roughness rho mu : ℝ) : Except PyError (ℝ × DWDetails) :=
  if mu = 0 then .error .zeroDivisionError
  else
    let Re := reynolds_number velocity diameter rho mu
    let regime := if Re < 2300 then "laminar" else if Re > 4000 then "turbulent"
      else "transitional"
    match friction_factorE Re roughness diameter with
    | .error e => .error e
    | .ok f =>
      if diameter = 0 then .error .zeroDivisionError
      else .ok (f * (length / diameter) * (rho * velocity ^ 2 / 2),
        ⟨Re, f, regime, velocity, diameter, length⟩)

/-- The `K_total = sum(minor_loss_coefficient(f) * n for f, n in fittings.items())`
generator sum in `pipe_design_summary`. -/
noncomputable def K_totalE : List (String × ℕ) → Except PyError ℝ
  | [] => .ok 0
  | p :: rest =>
    match minor_loss_coefficient p.1 with
    | .error e => .error e
    | .ok K =>
      match K_totalE rest with
      | .error e => .error e
      | .ok s => .ok (K * (p.2 : ℝ) + s)

/-- The dict returned by `pipe_design_summary`. -/
structure DesignSummary where
  flow_rate_m3h : ℝ
  flow_rate_m3s : ℝ
  DN : ℤ
  D_internal_mm : ℝ
  D_internal_m : ℝ
  velocity_m_s : ℝ
  length_straight_m : ℝ
  length_equivalent_m : ℝ
  length_total_m : ℝ
  Reynolds : ℝ
  friction_factor : ℝ
  flow_regime : String
  pressure_drop_friction_Pa : ℝ
  pressure_drop_friction_kPa : ℝ
  pressure_drop_friction_bar : ℝ
  pressure_drop_total_Pa : ℝ
  pressure_drop_total_kPa : ℝ
  pressure_drop_total_bar : ℝ
  material : String
  roughness_m : ℝ

/-- `pipe_design_summary`: the complete pipe-design pipeline, with
Python-exception semantics.  `rho`/`mu` take their water defaults inside
`pressure_drop_darcy_weisbach` and `pressure_drop_minor_losses`. -/
noncomputable def pipe_design_summary (flow_rate_m3h length : ℝ)
    (fittings : List (String × ℕ)) (material : String) (v_target : ℝ) :
    Except PyError DesignSummary :=
  let Q := flow_rate_m3h / 3600
  let p := optimal_pipe_diameter Q 0.6 3.0 v_target
  match select_standard_pipe p.1 "schedule_40" with
  | .error e => .error e
  | .ok (DN, D_internal, _D_external) =>
    -- `4 * Q / (np.pi * D_internal**2)` is a true-Python float division
    if Real.pi * D_internal ^ 2 = 0 then .error .zeroDivisionError
    else
      let v_actual := 4 * Q / (Real.pi * D_internal ^ 2)
      match PIPE_ROUGHNESS material with
      | none => .error .keyError
      | some roughness =>
        match equivalent_length fittings D_internal with
        | .error e => .error e
        | .ok L_eq =>
          let L_total := length + L_eq
          match pressure_drop_darcy_weisbachE v_actual L_total D_internal roughness
              WATER_RHO WATER_MU with
          | .error e => .error e
          | .ok (dP_friction, details) =>
            match K_totalE fittings with
            | .error e => .error e
            | .ok K_total =>
              let _dP_minor := pressure_drop_minor_losses v_actual K_total WATER_RHO
              let dP_total := dP_friction
              .ok
                { flow_rate_m3h := flow_rate_m3h
                  flow_rate_m3s := Q
                  DN := DN
                  D_internal_mm := D_internal * 1000
                  D_internal_m := D_internal
                  velocity_m_s := v_actual
                  length_straight_m := length
                  length_equivalent_m := L_eq
                  length_total_m := L_total
                  Reynolds := details.Re
                  friction_factor := details.f
                  flow_regime := details.regime
                  pressure_drop_friction_Pa := dP_friction
                  pressure_drop_friction_kPa := dP_friction / 1000
                  pressure_drop_friction_bar := dP_friction / 100000
                  pressure_drop_total_Pa := dP_total
                  pressure_drop_total_kPa := dP_total / 1000
                  pressure_drop_total_bar := dP_total / 100000
                  material := material
                  roughness_m := roughness }

/-! ## C3: laminar regime returns exactly 64/Re -/

/-- C3.  For every Reynolds number `Re` with `0 < Re < 2300` and every
roughness, diameter and method, `friction_factor` returns exactly `64 / Re`
(the laminar branch). -/
theorem C3_laminar_exact (Re roughness diameter : ℝ) (method : FFMethod)
    (_h0 : 0 < Re) (h1 : Re < 2300) :
    friction_factor Re roughness diameter method = 64 / Re := by
  unfold friction_factor friction_factor_laminar
  rw [if_pos h1]
  norm_num

/-- Witness for C3 at `Re = 1000`, commercial-steel roughness, DN50. -/
theorem C3_laminar_exact_witness :
    (0 : ℝ) < 1000 ∧ (1000 : ℝ) < 2300 ∧
      friction_factor 1000 0.000045 0.05 .swameeJain = 64 / 1000 :=
  ⟨by norm_num, by norm_num,
    C3_laminar_exact 1000 0.000045 0.05 .swameeJain (by norm_num) (by norm_num)⟩

/-! ## C4: transitional regime is the documented linear interpolation -/

/-- C4.  For `2300 ≤ Re ≤ 4000` the friction factor is the linear
interpolation `f_lam + (f_turb - f_lam) * (Re - 2300) / 1700` between the
laminar formula at 2300 and the turbulent correlation at 4000 with the same
roughness and diameter. -/
theorem C4_transitional_interpolation (Re roughness diameter : ℝ) (method : FFMethod)
    (h1 : 2300 ≤ Re) (h2 : Re ≤ 4000) :
    friction_factor Re roughness diameter method =
      friction_factor_laminar 2300 +
        (friction_factor_turbulent 4000 roughness diameter method -
          friction_factor_laminar 2300) * (Re - 2300) / 1700 := by
  unfold friction_factor
  rw [if_neg (not_lt.mpr h1), if_neg (not_lt.mpr h2)]
  norm_num

/-- Witness for C4 at `Re = 3000`. -/
theorem C4_transitional_interpolation_witness :
    (2300 : ℝ) ≤ 3000 ∧ (3000 : ℝ) ≤ 4000 ∧
      friction_factor 3000 0.000045 0.05 .swameeJain =
        friction_factor_laminar 2300 +
          (friction_factor_turbulent 4000 0.000045 0.05 .swameeJain -
            friction_factor_laminar 2300) * (3000 - 2300) / 1700 :=
  ⟨by norm_num, by norm_num,
    C4_transitional_interpolation 3000 0.000045 0.05 .swameeJain (by norm_num) (by norm_num)⟩

/-! ## C1: Re = 2300 exactly -/

/-- C1 (amended).  With `Re` exactly 2300 the pressure-drop engine
classifies the flow as `"transitional"` (the laminar branch requires
`Re < 2300` strictly), while the friction factor still equals `64 / 2300`
because the interpolation weight `(Re - 2300) / 1700` vanishes there. -/
theorem C1_re2300_transitional (velocity length diameter roughness rho mu : ℝ)
    (h : reynolds_number velocity diameter rho mu = 2300) :
    (pressure_drop_darcy_weisbach velocity length diameter roughness rho mu).2.regime =
        "transitional" ∧
      (pressure_drop_darcy_weisbach velocity length diameter roughness rho mu).2.f =
        64 / 2300 := by
  unfold pressure_drop_darcy_weisbach
  rw [h]
  unfold friction_factor friction_factor_laminar
  norm_num

/-- Witness for C1 (amended) at a concrete input realising `Re = 2300`. -/
theorem C1_re2300_transitional_witness :
    (pressure_drop_darcy_weisbach (2300 * 1.002e-3 / (998 * 2)) 10 2 0.000045
        998 1.002e-3).2.regime = "transitional" ∧
      (pressure_drop_darcy_weisbach (2300 * 1.002e-3 / (998 * 2)) 10 2 0.000045
        998 1.002e-3).2.f = 64 / 2300 :=
  C1_re2300_transitional (2300 * 1.002e-3 / (998 * 2)) 10 2 0.000045 998 1.002e-3
    (by unfold reynolds_number; norm_num)

/-- Counterexample to C1 as stated: at a concrete input whose Reynolds
number is exactly 2300 the engine does NOT classify the flow as laminar. -/
theorem C1_counterexample :
    (pressure_drop_darcy_weisbach (2300 * 1.002e-3 / 998) 10 1 0.000045
        998 1.002e-3).2.regime ≠ "laminar" := by
  have h : reynolds_number (2300 * 1.002e-3 / 998) 1 998 1.002e-3 = 2300 := by
    unfold reynolds_number; norm_num
  unfold pressure_drop_darcy_weisbach
  rw [h]
  norm_num
  decide

/-! ## C10: select_standard_pipe is partial in its schedule argument -/

/-- C10.  For every schedule other than `'schedule_40'`,
`select_standard_pipe` fails with an unhandled `UnboundLocalError`
(`D_internal` / `D_external` are never assigned), not a clean typed error. -/
theorem C10_schedule_unbound (diameter_calculated : ℝ) (schedule : String)
    (h : schedule ≠ "schedule_40") :
    select_standard_pipe diameter_calculated schedule = .error .unboundLocalError := by
  unfold select_standard_pipe
  simp [h]

/-- Witness for C10 with `'schedule_80'`. -/
theorem C10_schedule_unbound_witness :
    select_standard_pipe 0.04 "schedule_80" = .error .unboundLocalError :=
  C10_schedule_unbound 0.04 "schedule_80" (by decide)

/-! ## C6: structure of the Colebrook–White solver -/

/-- Characterisation of the bounded fixed-point loop `cwLoop`: starting from
any seed `f`, either the stopping test `|f_new - f| < 1e-6` first fires at
some iterate `k < n` and the PREVIOUS iterate is returned, or the test never
fires within the budget and the `n`-th iterate (the last computed value) is
returned. -/
theorem cwLoop_spec (Re rr : ℝ) : ∀ (n : ℕ) (f : ℝ),
    (∃ k < n, |(cwStep Re rr)^[k + 1] f - (cwStep Re rr)^[k] f| < 1e-6 ∧
      (∀ j < k, 1e-6 ≤ |(cwStep Re rr)^[j + 1] f - (cwStep Re rr)^[j] f|) ∧
      cwLoop Re rr n f = (cwStep Re rr)^[k] f) ∨
    ((∀ j < n, 1e-6 ≤ |(cwStep Re rr)^[j + 1] f - (cwStep Re rr)^[j] f|) ∧
      cwLoop Re rr n f = (cwStep Re rr)^[n] f) := by
  intro n
  induction n with
  | zero =>
    intro f
    right
    exact ⟨fun j hj => absurd hj (Nat.not_lt_zero j), rfl⟩
  | succ n ih =>
    intro f
    by_cases hstop : |cwStep Re rr f - f| < 1e-6
    · left
      refine ⟨0, Nat.succ_pos n, ?_, ?_, ?_⟩
      · simpa using hstop
      · intro j hj; exact absurd hj (Nat.not_lt_zero j)
      · simp [cwLoop, hstop]
    · have hloop : cwLoop Re rr (n + 1) f = cwLoop Re rr n (cwStep Re rr f) := by
        simp [cwLoop, hstop]
      have hshift : ∀ k : ℕ, (cwStep Re rr)^[k] (cwStep Re rr f) = (cwStep Re rr)^[k + 1] f := by
        intro k
        rw [Function.iterate_succ_apply]
      rcases ih (cwStep Re rr f) with ⟨k, hk, hlt, hfirst, heq⟩ | ⟨hall, heq⟩
      · left
        refine ⟨k + 1, Nat.succ_lt_succ hk, ?_, ?_, ?_⟩
        · rw [← hshift (k + 1), ← hshift k]; exact hlt
        · intro j hj
          cases j with
          | zero => simpa using not_lt.mp hstop
          | succ j =>
            rw [← hshift (j + 1), ← hshift j]
            exact hfirst j (Nat.lt_of_succ_lt_succ hj)
        · rw [hloop, heq, hshift]
      · right
        refine ⟨?_, ?_⟩
        · intro j hj
          cases j with
          | zero => simpa using not_lt.mp hstop
          | succ j =>
            rw [← hshift (j + 1), ← hshift j]
            exact hall j (Nat.lt_of_succ_lt_succ hj)
        · rw [hloop, heq, hshift]

/-- C6.  The Colebrook–White solver is the fixed-point iteration of
`cwStep` seeded with the Swamee–Jain estimate: it executes at most 10
iterations, stops early at the first iterate where successive values differ
by less than `1e-6`, and when the test never fires within the budget it
returns the 10th (last computed) iterate — a value, never an error. -/
theorem C6_colebrook_iteration (Re roughness diameter : ℝ) :
    (∃ k < 10,
      |(cwStep Re (roughness / diameter))^[k + 1]
          (friction_factor_turbulent Re roughness diameter .swameeJain) -
        (cwStep Re (roughness / diameter))^[k]
          (friction_factor_turbulent Re roughness diameter .swameeJain)| < 1e-6 ∧
      (∀ j < k, 1e-6 ≤
        |(cwStep Re (roughness / diameter))^[j + 1]
            (friction_factor_turbulent Re roughness diameter .swameeJain) -
          (cwStep Re (roughness / diameter))^[j]
            (friction_factor_turbulent Re roughness diameter .swameeJain)|) ∧
      friction_factor_turbulent Re roughness diameter .colebrookWhite =
        (cwStep Re (roughness / diameter))^[k]
          (friction_factor_turbulent Re roughness diameter .swameeJain)) ∨
    ((∀ j < 10, 1e-6 ≤
        |(cwStep Re (roughness / diameter))^[j + 1]
            (friction_factor_turbulent Re roughness diameter .swameeJain) -
          (cwStep Re (roughness / diameter))^[j]
            (friction_factor_turbulent Re roughness diameter .swameeJain)|) ∧
      friction_factor_turbulent Re roughness diameter .colebrookWhite =
        (cwStep Re (roughness / diameter))^[10]
          (friction_factor_turbulent Re roughness diameter .swameeJain)) := by
  have hseed : friction_factor_turbulent Re roughness diameter .swameeJain =
      0.25 / Real.logb 10 (roughness / diameter / 3.7 + 5.74 / Re ^ (0.9 : ℝ)) ^ 2 := rfl
  have hcw : friction_factor_turbulent Re roughness diameter .colebrookWhite =
      cwLoop Re (roughness / diameter) 10
        (friction_factor_turbulent Re roughness diameter .swameeJain) := rfl
  rw [hcw]
  exact cwLoop_spec Re (roughness / diameter) 10
    (friction_factor_turbulent Re roughness diameter .swameeJain)

/-! ## C8: standard-size selection is a first-minimiser scan -/

/-- Python's `min(b :: l, key=key)` splits the scanned list around its
result: every element strictly BEFORE the result has a strictly larger key
(so ties are broken toward the smaller index) and every element after has a
larger-or-equal key. -/
theorem minByKey_split (key : ℤ → ℝ) :
    ∀ (l : List ℤ) (b : ℤ),
    ∃ l₁ l₂, b :: l = l₁ ++ minByKey key b l :: l₂ ∧
      (∀ d ∈ l₁, key (minByKey key b l) < key d) ∧
      ∀ d ∈ l₂, key (minByKey key b l) ≤ key d := by
  intro l
  induction l with
  | nil =>
    intro b
    exact ⟨[], [], rfl, by simp, by simp⟩
  | cons x xs ih =>
    intro b
    by_cases hx : key x < key b
    · simp only [minByKey, if_pos hx]
      obtain ⟨m₁, m₂, heq, hlt, hle⟩ := ih x
      have hrx : key (minByKey key x xs) ≤ key x := by
        cases m₁ with
        | nil =>
          simp only [List.nil_append] at heq
          injection heq with h1 _
          exact le_of_eq (congrArg key h1.symm)
        | cons c m₁' =>
          simp only [List.cons_append] at heq
          injection heq with h1 _
          exact le_of_lt (hlt x (h1 ▸ List.mem_cons_self c m₁'))
      refine ⟨b :: m₁, m₂, ?_, ?_, hle⟩
      · rw [List.cons_append, ← heq]
      · intro d hd
        rcases List.mem_cons.mp hd with h | h
        · subst h; exact lt_of_le_of_lt hrx hx
        · exact hlt d h
    · simp only [minByKey, if_neg hx]
      obtain ⟨m₁, m₂, heq, hlt, hle⟩ := ih b
      cases m₁ with
      | nil =>
        simp only [List.nil_append] at heq
        injection heq with h1 h2
        refine ⟨[], x :: xs, ?_, by simp, ?_⟩
        · rw [List.nil_append, ← h1]
        · intro d hd
          rcases List.mem_cons.mp hd with h | h
          · subst h; rw [← h1]; exact not_lt.mp hx
          · exact hle d (h2 ▸ h)
      | cons c m₁' =>
        simp only [List.cons_append] at heq
        injection heq with h1 h2
        have hrb : key (minByKey key b xs) < key b := by
          exact hlt b (h1 ▸ List.mem_cons_self c m₁')
        refine ⟨b :: x :: m₁', m₂, ?_, ?_, hle⟩
        · rw [List.cons_append, List.cons_append, ← h2]
        · intro d hd
          rcases List.mem_cons.mp hd with h | h
          · subst h; exact hrb
          · rcases List.mem_cons.mp h with h' | h'
            · subst h'; exact lt_of_lt_of_le hrb (not_lt.mp hx)
            · exact hlt d (List.mem_cons_of_mem c h')

/-- C8.  `select_standard_pipe` succeeds for `'schedule_40'` and its nominal
diameter is a member of the `STANDARD_DN` catalog that minimises
`|DN - D_calculated_mm|`; everything strictly before it in the catalog has a
strictly larger distance, so a tie at an exact midpoint is broken toward the
smaller catalog index. -/
theorem C8_select_standard_pipe_nearest (diameter_calculated : ℝ) :
    ∃ (DN : ℤ) (D_internal D_external : ℝ) (l₁ l₂ : List ℤ),
      select_standard_pipe diameter_calculated "schedule_40" =
          .ok (DN, D_internal, D_external) ∧
        STANDARD_DN = l₁ ++ DN :: l₂ ∧
        (∀ d ∈ STANDARD_DN,
          |(DN : ℝ) - diameter_calculated * 1000| ≤
            |(d : ℝ) - diameter_calculated * 1000|) ∧
        ∀ d ∈ l₁,
          |(DN : ℝ) - diameter_calculated * 1000| <
            |(d : ℝ) - diameter_calculated * 1000| := by
  obtain ⟨l₁, l₂, heq, hlt, hle⟩ :=
    minByKey_split (fun d : ℤ => |(d : ℝ) - diameter_calculated * 1000|)
      [20, 25, 32, 40, 50, 65, 80, 100, 125, 150, 200, 250, 300] 15
  have hDN : nearestDN (diameter_calculated * 1000) =
      minByKey (fun d : ℤ => |(d : ℝ) - diameter_calculated * 1000|)
        15 [20, 25, 32, 40, 50, 65, 80, 100, 125, 150, 200, 250, 300] := rfl
  have hcat : STANDARD_DN = l₁ ++ nearestDN (diameter_calculated * 1000) :: l₂ := by
    rw [hDN]; exact heq
  refine ⟨nearestDN (diameter_calculated * 1000),
    ((nearestDN (diameter_calculated * 1000) : ℝ) -
        2 * (if nearestDN (diameter_calculated * 1000) ≤ 50 then (3.0 : ℝ)
          else if nearestDN (diameter_calculated * 1000) ≤ 100 then 4.0 else 6.0)) / 1000,
    (nearestDN (diameter_calculated * 1000) : ℝ) / 1000, l₁, l₂, ?_, hcat, ?_, ?_⟩
  · unfold select_standard_pipe
    rw [if_pos rfl]
  · intro d hd
    rw [hcat] at hd
    rcases List.mem_append.mp hd with h | h
    · exact le_of_lt (hDN ▸ hlt d h)
    · rcases List.mem_cons.mp h with h' | h'
      · subst h'; exact le_refl _
      · exact hDN ▸ hle d h'
  · intro d hd
    exact hDN ▸ hlt d hd

/-! ## Pipeline helper lemmas -/

/-- The nominal diameter picked by `nearestDN` is a catalog member. -/
theorem nearestDN_mem (x : ℝ) : nearestDN x ∈ STANDARD_DN := by
  obtain ⟨l₁, l₂, heq, -, -⟩ :=
    minByKey_split (fun d : ℤ => |(d : ℝ) - x|)
      [20, 25, 32, 40, 50, 65, 80, 100, 125, 150, 200, 250, 300] 15
  have : STANDARD_DN = l₁ ++ nearestDN x :: l₂ := heq
  rw [this]
  exact List.mem_append.mpr (Or.inr (List.mem_cons_self _ _))

/-- Every catalog entry is at least DN 15. -/
theorem nearestDN_ge (x : ℝ) : 15 ≤ nearestDN x := by
  have hall : ∀ d ∈ STANDARD_DN, (15 : ℤ) ≤ d := by decide
  exact hall _ (nearestDN_mem x)

/-- For `'schedule_40'`, `select_standard_pipe` always succeeds, with a
strictly positive internal diameter. -/
theorem select40_ok (x : ℝ) :
    ∃ (DN : ℤ) (Di De : ℝ),
      select_standard_pipe x "schedule_40" = .ok (DN, Di, De) ∧ 15 ≤ DN ∧ 0 < Di := by
  refine ⟨nearestDN (x * 1000),
    ((nearestDN (x * 1000) : ℝ) -
        2 * (if nearestDN (x * 1000) ≤ 50 then (3.0 : ℝ)
          else if nearestDN (x * 1000) ≤ 100 then 4.0 else 6.0)) / 1000,
    (nearestDN (x * 1000) : ℝ) / 1000, ?_, nearestDN_ge _, ?_⟩
  · unfold select_standard_pipe
    rw [if_pos rfl]
  · have h15 : (15 : ℝ) ≤ (nearestDN (x * 1000) : ℝ) := by
      exact_mod_cast nearestDN_ge (x * 1000)
    split_ifs with h1 h2
    · norm_num; linarith
    · have : (50 : ℝ) < (nearestDN (x * 1000) : ℝ) := by exact_mod_cast not_le.mp h1
      norm_num; linarith
    · have : (100 : ℝ) < (nearestDN (x * 1000) : ℝ) := by exact_mod_cast not_le.mp h2
      norm_num; linarith

/-- The claim's equivalent-length formula: `Σ count_i * K_i * D / 0.02`. -/
noncomputable def equivalentLengthFormula (fittings : List (String × ℕ)) (D : ℝ) : ℝ :=
  (fittings.map (fun p => (p.2 : ℝ) * (K_lookup p.1).getD 0 * D / 0.02)).sum

/-- The accumulator loop of `equivalent_length` computes
`acc + equivalentLengthFormula` when every fitting is known. -/
theorem equivalent_lengthGo_ok (D : ℝ) :
    ∀ (l : List (String × ℕ)) (acc : ℝ), (∀ p ∈ l, (K_lookup p.1).isSome) →
      equivalent_lengthGo D l acc = .ok (acc + equivalentLengthFormula l D) := by
  intro l
  induction l with
  | nil =>
    intro acc _
    simp [equivalent_lengthGo, equivalentLengthFormula]
  | cons p rest ih =>
    intro acc hk
    obtain ⟨K, hK⟩ := Option.isSome_iff_exists.mp (hk p (List.mem_cons_self p rest))
    have hrest : ∀ q ∈ rest, (K_lookup q.1).isSome :=
      fun q hq => hk q (List.mem_cons_of_mem p hq)
    simp only [equivalent_lengthGo, minor_loss_coefficient, hK]
    rw [ih _ hrest]
    simp only [equivalentLengthFormula, List.map_cons, List.sum_cons, hK, Option.getD_some]
    rw [add_assoc]

/-- `equivalent_length` succeeds with the claim's Σ-formula when every
fitting is known. -/
theorem equivalent_length_ok (fittings : List (String × ℕ)) (D : ℝ)
    (hk : ∀ p ∈ fittings, (K_lookup p.1).isSome) :
    equivalent_length fittings D = .ok (equivalentLengthFormula fittings D) := by
  unfold equivalent_length
  rw [equivalent_lengthGo_ok D fittings 0 hk, zero_add]

/-- `K_totalE` succeeds when every fitting is known. -/
theorem K_totalE_ok :
    ∀ l : List (String × ℕ), (∀ p ∈ l, (K_lookup p.1).isSome) →
      ∃ k, K_totalE l = .ok k := by
  intro l
  induction l with
  | nil => intro _; exact ⟨0, rfl⟩
  | cons p rest ih =>
    intro hk
    obtain ⟨K, hK⟩ := Option.isSome_iff_exists.mp (hk p (List.mem_cons_self p rest))
    obtain ⟨s, hs⟩ := ih fun q hq => hk q (List.mem_cons_of_mem p hq)
    exact ⟨K * (p.2 : ℝ) + s, by simp only [K_totalE, minor_loss_coefficient, hK, hs]⟩

/-- Whenever the Python-exception friction factor does not raise, it agrees
with the pure `friction_factor` at the default method. -/
theorem friction_factorE_ok (Re roughness diameter : ℝ)
    (hRe : Re ≠ 0) (hD : diameter ≠ 0) :
    friction_factorE Re roughness diameter =
      .ok (friction_factor Re roughness diameter .swameeJain) := by
  unfold friction_factorE friction_factor
  by_cases h1 : Re < 2300
  · rw [if_pos h1, if_neg hRe, if_pos h1]
  · rw [if_neg h1, if_neg hD, if_neg h1]

/-- Whenever `pressure_drop_darcy_weisbachE` does not raise, it agrees with
the pure `pressure_drop_darcy_weisbach`. -/
theorem pressure_drop_darcy_weisbachE_ok (velocity length diameter roughness rho mu : ℝ)
    (hmu : mu ≠ 0) (hD : diameter ≠ 0)
    (hRe : reynolds_number velocity diameter rho mu ≠ 0) :
    pressure_drop_darcy_weisbachE velocity length diameter roughness rho mu =
      .ok (pressure_drop_darcy_weisbach velocity length diameter roughness rho mu) := by
  simp only [pressure_drop_darcy_weisbachE, pressure_drop_darcy_weisbach]
  rw [if_neg hmu, friction_factorE_ok _ _ _ hRe hD]
  simp only [if_neg hD]

/-- Inversion: any successful Darcy–Weisbach call returns exactly
`f * (L / D) * (rho * v² / 2)` with the friction factor stored in its
details record, and no other contribution. -/
theorem pressure_drop_darcy_weisbachE_inv (velocity length diameter roughness rho mu : ℝ)
    (dP : ℝ) (det : DWDetails)
    (h : pressure_drop_darcy_weisbachE velocity length diameter roughness rho mu =
      .ok (dP, det)) :
    dP = det.f * (length / diameter) * (rho * velocity ^ 2 / 2) := by
  simp only [pressure_drop_darcy_weisbachE] at h
  by_cases hmu : mu = 0
  · rw [if_pos hmu] at h; exact absurd h (by simp)
  rw [if_neg hmu] at h
  rcases hff : friction_factorE (reynolds_number velocity diameter rho mu) roughness diameter
    with e | f
  · rw [hff] at h; exact absurd h (by simp)
  rw [hff] at h
  simp only [] at h
  by_cases hd : diameter = 0
  · rw [if_pos hd] at h; exact absurd h (by simp)
  rw [if_neg hd] at h
  rw [Except.ok.injEq, Prod.mk.injEq] at h
  obtain ⟨h1, h2⟩ := h
  rw [← h1, ← h2]

/-- For positive flow and target velocity, a known material and known
fittings, the design pipeline succeeds. -/
theorem pds_ok (flow_rate_m3h length v_target : ℝ) (fittings : List (String × ℕ))
    (material : String) (hq : 0 < flow_rate_m3h)
    (hmat : (PIPE_ROUGHNESS material).isSome)
    (hf : ∀ p ∈ fittings, (K_lookup p.1).isSome) :
    ∃ r, pipe_design_summary flow_rate_m3h length fittings material v_target = .ok r := by
  obtain ⟨DN, Di, De, hsel, hDN15, hDi⟩ :=
    select40_ok (optimal_pipe_diameter (flow_rate_m3h / 3600) 0.6 3.0 v_target).1
  obtain ⟨roughv, hrough⟩ := Option.isSome_iff_exists.mp hmat
  obtain ⟨k, hk⟩ := K_totalE_ok fittings hf
  have hπ : Real.pi * Di ^ 2 ≠ 0 := by positivity
  have hva : 0 < 4 * (flow_rate_m3h / 3600) / (Real.pi * Di ^ 2) := by positivity
  have hRe : reynolds_number (4 * (flow_rate_m3h / 3600) / (Real.pi * Di ^ 2)) Di
      WATER_RHO WATER_MU ≠ 0 := by
    have : 0 < reynolds_number (4 * (flow_rate_m3h / 3600) / (Real.pi * Di ^ 2)) Di
        WATER_RHO WATER_MU := by
      unfold reynolds_number WATER_RHO WATER_MU
      positivity
    exact ne_of_gt this
  simp only [pipe_design_summary, hsel]
  rw [if_neg hπ]
  simp only [hrough, equivalent_length_ok fittings Di hf]
  rw [pressure_drop_darcy_weisbachE_ok _ _ _ _ _ _ (by norm_num [WATER_MU])
    (ne_of_gt hDi) hRe]
  simp only [hk]
  exact ⟨_, rfl⟩

/-! ## C7: fittings as equivalent length, folded in before the Darcy call -/

/-- C7.  In every successful run of the pipe-design pipeline the fittings
contribute only through the equivalent length
`Σ count_i * K_i * D / 0.02` (fixed assumed friction factor `0.02`,
regardless of the actual regime), which is added to the straight length
before the Darcy–Weisbach call; the reported total pressure drop is exactly
the Darcy–Weisbach term over that total length — minor losses are not added
inside the pressure-drop calculator. -/
theorem C7_minor_losses_as_equivalent_length
    (flow_rate_m3h length v_target : ℝ) (fittings : List (String × ℕ))
    (material : String) (r : DesignSummary)
    (hf : ∀ p ∈ fittings, (K_lookup p.1).isSome)
    (hok : pipe_design_summary flow_rate_m3h length fittings material v_target = .ok r) :
    r.length_equivalent_m = equivalentLengthFormula fittings r.D_internal_m ∧
      r.length_total_m = length + r.length_equivalent_m ∧
      r.pressure_drop_total_Pa =
        r.friction_factor * (r.length_total_m / r.D_internal_m) *
          (WATER_RHO * r.velocity_m_s ^ 2 / 2) ∧
      r.pressure_drop_total_Pa = r.pressure_drop_friction_Pa ∧
      (∀ D : ℝ, equivalent_length fittings D =
        .ok (equivalentLengthFormula fittings D)) := by
  obtain ⟨DN, Di, De, hsel, hDN15, hDi⟩ :=
    select40_ok (optimal_pipe_diameter (flow_rate_m3h / 3600) 0.6 3.0 v_target).1
  have hπ : Real.pi * Di ^ 2 ≠ 0 := by positivity
  simp only [pipe_design_summary, hsel] at hok
  rw [if_neg hπ] at hok
  rcases hmat : PIPE_ROUGHNESS material with _ | roughv
  · rw [hmat] at hok; exact absurd hok (by simp)
  rw [hmat] at hok
  simp only [equivalent_length_ok fittings Di hf] at hok
  rcases hdw : pressure_drop_darcy_weisbachE (4 * (flow_rate_m3h / 3600) / (Real.pi * Di ^ 2))
      (length + equivalentLengthFormula fittings Di) Di roughv WATER_RHO WATER_MU
    with e | q
  · rw [hdw] at hok; exact absurd hok (by simp)
  obtain ⟨dP, det⟩ := q
  rw [hdw] at hok
  simp only [] at hok
  rcases hkt : K_totalE fittings with e | k
  · rw [hkt] at hok; exact absurd hok (by simp)
  rw [hkt] at hok
  simp only [Except.ok.injEq] at hok
  subst hok
  refine ⟨rfl, rfl, ?_, rfl, fun D => equivalent_length_ok fittings D hf⟩
  exact pressure_drop_darcy_weisbachE_inv _ _ _ _ _ _ _ _ hdw

/-- Witness for C7: a concrete successful design run (1 m³/h, 10 m of pipe,
two 90° elbows, commercial steel). -/
theorem C7_minor_losses_as_equivalent_length_witness :
    ∃ r : DesignSummary,
      pipe_design_summary 1 10 [("90_elbow", 2)] "commercial_steel" 2 = .ok r ∧
        r.length_equivalent_m = equivalentLengthFormula [("90_elbow", 2)] r.D_internal_m ∧
        r.length_total_m = 10 + r.length_equivalent_m ∧
        r.pressure_drop_total_Pa =
          r.friction_factor * (r.length_total_m / r.D_internal_m) *
            (WATER_RHO * r.velocity_m_s ^ 2 / 2) := by
  have hf : ∀ p ∈ [(("90_elbow" : String), (2 : ℕ))], (K_lookup p.1).isSome := by
    intro p hp
    simp only [List.mem_singleton] at hp
    subst hp
    rfl
  obtain ⟨r, hr⟩ := pds_ok 1 10 2 [("90_elbow", 2)] "commercial_steel"
    (by norm_num) (by rfl) hf
  obtain ⟨h1, h2, h3, -, -⟩ := C7_minor_losses_as_equivalent_length 1 10 2
    [("90_elbow", 2)] "commercial_steel" r hf hr
  exact ⟨r, hr, h1, h2, h3⟩

/-! ## C2: zero flow rate -/

/-- At zero velocity the Reynolds number is 0 and the laminar branch's
`64.0 / Re` raises `ZeroDivisionError`. -/
theorem darcyE_zero_velocity (length diameter roughness : ℝ) :
    pressure_drop_darcy_weisbachE 0 length diameter roughness WATER_RHO WATER_MU =
      .error .zeroDivisionError := by
  simp only [pressure_drop_darcy_weisbachE]
  rw [if_neg (by norm_num [WATER_MU] : ¬(WATER_MU = (0 : ℝ)))]
  have hRe : reynolds_number 0 diameter WATER_RHO WATER_MU = 0 := by
    simp [reynolds_number]
  simp only [friction_factorE, hRe]
  norm_num

/-- The design pipeline at `Q = 0` (with a positive target velocity, a list
of known fittings and commercial steel): the computed diameter is 0, DN 15
is selected, the recomputed velocity is 0, the Reynolds number is 0, and the
laminar `64 / Re` raises `ZeroDivisionError`. -/
theorem pds_zero_flow (length v_target : ℝ) (fittings : List (String × ℕ))
    (_hv : 0 < v_target) (hf : ∀ p ∈ fittings, (K_lookup p.1).isSome) :
    pipe_design_summary 0 length fittings "commercial_steel" v_target =
      .error .zeroDivisionError := by
  have hopt : optimal_pipe_diameter ((0 : ℝ) / 3600) 0.6 3.0 v_target = (0, 0) := by
    simp only [optimal_pipe_diameter]
    have h1 : (4 : ℝ) * (0 / 3600) / (Real.pi * v_target) = 0 := by norm_num
    rw [h1, Real.sqrt_zero]
    norm_num
  have hDN0 : nearestDN ((0 : ℝ) * 1000) = 15 := by
    norm_num [nearestDN, STANDARD_DN, minByKey, abs_of_nonneg]
  have hsel : select_standard_pipe (0 : ℝ) "schedule_40" = .ok (15, 0.009, 0.015) := by
    simp only [select_standard_pipe, hDN0]
    norm_num
  have hπ : Real.pi * (0.009 : ℝ) ^ 2 ≠ 0 := by positivity
  have hcs : PIPE_ROUGHNESS "commercial_steel" = some 0.000045 := rfl
  have hv0 : (4 : ℝ) * (0 / 3600) / (Real.pi * (0.009 : ℝ) ^ 2) = 0 := by norm_num
  simp only [pipe_design_summary, hopt, hsel]
  rw [if_neg hπ]
  simp only [hcs, equivalent_length_ok fittings 0.009 hf, hv0, darcyE_zero_velocity]

/-- C2 (amended).  Running the pipeline with `Q = 0` does not return a
result; but the failure is an unhandled `ZeroDivisionError` raised by
`64.0 / Re` at `Re = 0` deep in the laminar friction-factor formula — there
is no typed `InvalidInput` error anywhere in the module. -/
theorem C2_zero_flow_zero_division (length v_target : ℝ) (fittings : List (String × ℕ))
    (hv : 0 < v_target) (hf : ∀ p ∈ fittings, (K_lookup p.1).isSome) :
    pipe_design_summary 0 length fittings "commercial_steel" v_target =
      .error .zeroDivisionError :=
  pds_zero_flow length v_target fittings hv hf

/-- Witness for C2 (amended) at `length = 10`, `v_target = 2`, no fittings. -/
theorem C2_zero_flow_zero_division_witness :
    pipe_design_summary 0 10 [] "commercial_steel" 2 = .error .zeroDivisionError :=
  C2_zero_flow_zero_division 10 2 [] (by norm_num) (by simp)

/-- Counterexample to C2 as stated: at `Q = 0` the pipeline fails with
`ZeroDivisionError`, which is not the typed `InvalidInput` the claim
asserts. -/
theorem C2_counterexample :
    pipe_design_summary 0 6 [] "commercial_steel" 2 = .error .zeroDivisionError ∧
      PyError.zeroDivisionError ≠ PyError.invalidInput :=
  ⟨pds_zero_flow 6 2 [] (by norm_num) (by simp), by decide⟩

/-! ## Real-power toolkit for the Swamee–Jain analysis -/

/-- The argument of the `log10` in the Swamee–Jain correlation:
`ε/D/3.7 + 5.74/Re^0.9`. -/
noncomputable def sjArg (Re roughness diameter : ℝ) : ℝ :=
  roughness / diameter / 3.7 + 5.74 / Re ^ (0.9 : ℝ)

/-- The Swamee–Jain branch, written through `sjArg`. -/
theorem sj_eq (Re roughness diameter : ℝ) :
    friction_factor_turbulent Re roughness diameter .swameeJain =
      0.25 / Real.logb 10 (sjArg Re roughness diameter) ^ 2 := rfl

theorem rpow_tenth_le {B c : ℝ} (hB : 0 < B) (hc : 0 < c) (h : B ≤ c ^ (10 : ℕ)) :
    B ^ (0.1 : ℝ) ≤ c := by
  calc B ^ (0.1 : ℝ) ≤ (c ^ (10 : ℕ)) ^ (0.1 : ℝ) :=
        Real.rpow_le_rpow hB.le h (by norm_num)
    _ = c := by
        rw [← Real.rpow_natCast c 10, ← Real.rpow_mul hc.le]
        norm_num

theorem le_rpow_tenth {B c : ℝ} (_hB : 0 < B) (hc : 0 < c) (h : c ^ (10 : ℕ) ≤ B) :
    c ≤ B ^ (0.1 : ℝ) := by
  calc c = (c ^ (10 : ℕ)) ^ (0.1 : ℝ) := by
        rw [← Real.rpow_natCast c 10, ← Real.rpow_mul hc.le]
        norm_num
    _ ≤ B ^ (0.1 : ℝ) :=
        Real.rpow_le_rpow (by positivity) h (by norm_num)

theorem rpow09_eq_div {B : ℝ} (hB : 0 < B) : B ^ (0.9 : ℝ) = B / B ^ (0.1 : ℝ) := by
  have h2 : B ^ (0.1 : ℝ) ≠ 0 := ne_of_gt (Real.rpow_pos_of_pos hB _)
  rw [eq_div_iff h2, ← Real.rpow_add hB]
  norm_num

theorem rpow09_mono {x y : ℝ} (hx : 0 ≤ x) (h : x ≤ y) :
    x ^ (0.9 : ℝ) ≤ y ^ (0.9 : ℝ) :=
  Real.rpow_le_rpow hx h (by norm_num)

theorem rpow09_4000_lb : (1600 : ℝ) ≤ (4000 : ℝ) ^ (0.9 : ℝ) := by
  have h01 : (4000 : ℝ) ^ (0.1 : ℝ) ≤ 2.5 :=
    rpow_tenth_le (by norm_num) (by norm_num) (by norm_num)
  have hpos : 0 < (4000 : ℝ) ^ (0.1 : ℝ) := Real.rpow_pos_of_pos (by norm_num) _
  rw [rpow09_eq_div (by norm_num)]
  calc (1600 : ℝ) = 4000 / 2.5 := by norm_num
    _ ≤ 4000 / (4000 : ℝ) ^ (0.1 : ℝ) := by gcongr

theorem rpow09_4000_ub : (4000 : ℝ) ^ (0.9 : ℝ) ≤ 1747 := by
  have h01 : (2.29 : ℝ) ≤ (4000 : ℝ) ^ (0.1 : ℝ) :=
    le_rpow_tenth (by norm_num) (by norm_num) (by norm_num)
  rw [rpow09_eq_div (by norm_num)]
  calc (4000 : ℝ) / (4000 : ℝ) ^ (0.1 : ℝ) ≤ 4000 / 2.29 := by gcongr
    _ ≤ 1747 := by norm_num

/-! ## Bounds on the Swamee–Jain argument in the validity domain -/

theorem sjArg_pos {Re roughness diameter : ℝ} (hr : 0 ≤ roughness) (hD : 0 < diameter)
    (hRe : 0 < Re) : 0 < sjArg Re roughness diameter := by
  unfold sjArg
  have h1 : 0 ≤ roughness / diameter / 3.7 := by positivity
  have h2 : 0 < (5.74 : ℝ) / Re ^ (0.9 : ℝ) :=
    div_pos (by norm_num) (Real.rpow_pos_of_pos hRe _)
  linarith

theorem sjArg_ub {Re roughness diameter : ℝ} (_hr : 0 ≤ roughness) (_hD : 0 < diameter)
    (hrel : roughness / diameter ≤ 0.01) (hRe : 4000 ≤ Re) :
    sjArg Re roughness diameter ≤ 0.0063 := by
  unfold sjArg
  have h1 : roughness / diameter / 3.7 ≤ 0.01 / 3.7 := by gcongr
  have hRe09 : (1600 : ℝ) ≤ Re ^ (0.9 : ℝ) :=
    le_trans rpow09_4000_lb (rpow09_mono (by norm_num) hRe)
  have h2 : (5.74 : ℝ) / Re ^ (0.9 : ℝ) ≤ 5.74 / 1600 := by gcongr
  calc roughness / diameter / 3.7 + 5.74 / Re ^ (0.9 : ℝ) ≤ 0.01 / 3.7 + 5.74 / 1600 :=
        add_le_add h1 h2
    _ ≤ 0.0063 := by norm_num

/-- In the validity domain the natural log of the Swamee–Jain argument is at
most −1 (the argument is below `1/e`). -/
theorem log_sjArg_le_neg_one {Re roughness diameter : ℝ} (hr : 0 ≤ roughness)
    (hD : 0 < diameter) (hrel : roughness / diameter ≤ 0.01) (hRe : 4000 ≤ Re) :
    Real.log (sjArg Re roughness diameter) ≤ -1 := by
  have hpos : 0 < sjArg Re roughness diameter :=
    sjArg_pos hr hD (by linarith)
  have h1 : Real.log (sjArg Re roughness diameter) ≤ Real.log 0.0063 :=
    Real.log_le_log hpos (sjArg_ub hr hD hrel hRe)
  have h2 : Real.log 0.0063 ≤ -1 := by
    rw [Real.log_le_iff_le_exp (by norm_num)]
    have he : Real.exp 1 < 2.7182818286 := Real.exp_one_lt_d9
    have h3 : (0.0063 : ℝ) ≤ (Real.exp 1)⁻¹ := by
      have h4 : Real.exp 1 ≤ 158 := by linarith
      calc (0.0063 : ℝ) ≤ (158 : ℝ)⁻¹ := by norm_num
        _ ≤ (Real.exp 1)⁻¹ := by
            exact inv_anti₀ (Real.exp_pos 1) h4
    calc (0.0063 : ℝ) ≤ (Real.exp 1)⁻¹ := h3
      _ = Real.exp (-1) := (Real.exp_neg 1).symm
  linarith

/-! ## Monotonicity of the turbulent branch -/

set_option maxHeartbeats 800000 in
/-- On the turbulent range and inside the correlation's validity domain,
`Re ↦ f_swamee_jain(Re) * Re²` is monotone: the growth `Re²` always beats
the slow decay of the friction factor. -/
theorem sj_mul_sq_mono {roughness diameter : ℝ} (hr : 0 ≤ roughness) (hD : 0 < diameter)
    (hrel : roughness / diameter ≤ 0.01) {x y : ℝ} (hx : 4000 ≤ x) (hxy : x ≤ y) :
    friction_factor_turbulent x roughness diameter .swameeJain * x ^ 2 ≤
      friction_factor_turbulent y roughness diameter .swameeJain * y ^ 2 := by
  have hy : 4000 ≤ y := le_trans hx hxy
  have hx0 : (0 : ℝ) < x := by linarith
  have hy0 : (0 : ℝ) < y := by linarith
  have hAx0 : 0 < sjArg x roughness diameter := sjArg_pos hr hD hx0
  have hAy0 : 0 < sjArg y roughness diameter := sjArg_pos hr hD hy0
  have hlx : Real.log (sjArg x roughness diameter) ≤ -1 :=
    log_sjArg_le_neg_one hr hD hrel hx
  have hly : Real.log (sjArg y roughness diameter) ≤ -1 :=
    log_sjArg_le_neg_one hr hD hrel hy
  have hxpow : (0 : ℝ) < x ^ (0.9 : ℝ) := Real.rpow_pos_of_pos hx0 _
  have hypow : (0 : ℝ) < y ^ (0.9 : ℝ) := Real.rpow_pos_of_pos hy0 _
  have hpowmono : x ^ (0.9 : ℝ) ≤ y ^ (0.9 : ℝ) := rpow09_mono hx0.le hxy
  have ha1a2 : (5.74 : ℝ) / y ^ (0.9 : ℝ) ≤ 5.74 / x ^ (0.9 : ℝ) := by gcongr
  have ht1 : 0 ≤ roughness / diameter / 3.7 := by positivity
  -- mediant bound: Ax/Ay ≤ (y/x)^0.9
  have hmed : sjArg x roughness diameter / sjArg y roughness diameter ≤
      (5.74 / x ^ (0.9 : ℝ)) / (5.74 / y ^ (0.9 : ℝ)) := by
    unfold sjArg
    rw [div_le_div_iff (by unfold sjArg at hAy0; exact hAy0)
      (div_pos (by norm_num) hypow)]
    nlinarith [mul_le_mul_of_nonneg_left ha1a2 ht1]
  have hdivpow : (5.74 / x ^ (0.9 : ℝ)) / (5.74 / y ^ (0.9 : ℝ)) = (y / x) ^ (0.9 : ℝ) := by
    rw [Real.div_rpow hy0.le hx0.le]
    field_simp
    ring
  have hK1 : sjArg x roughness diameter / sjArg y roughness diameter ≤
      (y / x) ^ (0.9 : ℝ) := hdivpow ▸ hmed
  have hyx : (0 : ℝ) < y / x := div_pos hy0 hx0
  have hK2 : Real.log (sjArg x roughness diameter / sjArg y roughness diameter) ≤
      0.9 * (y / x - 1) := by
    calc Real.log (sjArg x roughness diameter / sjArg y roughness diameter) ≤
        Real.log ((y / x) ^ (0.9 : ℝ)) := Real.log_le_log (div_pos hAx0 hAy0) hK1
      _ = 0.9 * Real.log (y / x) := Real.log_rpow hyx 0.9
      _ ≤ 0.9 * (y / x - 1) := by
          have := Real.log_le_sub_one_of_pos hyx
          linarith
  have hlogdiv : Real.log (sjArg x roughness diameter / sjArg y roughness diameter) =
      Real.log (sjArg x roughness diameter) - Real.log (sjArg y roughness diameter) :=
    Real.log_div (ne_of_gt hAx0) (ne_of_gt hAy0)
  have hK3 : x * (-Real.log (sjArg y roughness diameter)) ≤
      y * (-Real.log (sjArg x roughness diameter)) := by
    have e1 : x * (Real.log (sjArg x roughness diameter) -
        Real.log (sjArg y roughness diameter)) ≤ 0.9 * (y - x) := by
      have h5 : x * Real.log (sjArg x roughness diameter / sjArg y roughness diameter) ≤
          x * (0.9 * (y / x - 1)) := mul_le_mul_of_nonneg_left hK2 hx0.le
      rw [hlogdiv] at h5
      have h6 : x * (0.9 * (y / x - 1)) = 0.9 * (y - x) := by
        field_simp
      linarith
    have e2 : 0.9 * (y - x) ≤ (y - x) * (-Real.log (sjArg x roughness diameter)) := by
      have h7 : (0 : ℝ) ≤ y - x := by linarith
      have h8 : (0.9 : ℝ) ≤ -Real.log (sjArg x roughness diameter) := by linarith
      nlinarith
    nlinarith [e1, e2]
  have hK4 : (x * (-Real.log (sjArg y roughness diameter))) ^ 2 ≤
      (y * (-Real.log (sjArg x roughness diameter))) ^ 2 :=
    pow_le_pow_left₀ (mul_nonneg hx0.le (by linarith)) hK3 2
  have hL10 : 0 < Real.log 10 := Real.log_pos (by norm_num)
  have hlxne : Real.log (sjArg x roughness diameter) ≠ 0 := by
    intro hcontra
    rw [hcontra] at hlx
    norm_num at hlx
  have hlyne : Real.log (sjArg y roughness diameter) ≠ 0 := by
    intro hcontra
    rw [hcontra] at hly
    norm_num at hly
  have hfx : friction_factor_turbulent x roughness diameter .swameeJain * x ^ 2 =
      0.25 * Real.log 10 ^ 2 * x ^ 2 / Real.log (sjArg x roughness diameter) ^ 2 := by
    rw [sj_eq]
    simp only [Real.logb]
    field_simp
  have hfy : friction_factor_turbulent y roughness diameter .swameeJain * y ^ 2 =
      0.25 * Real.log 10 ^ 2 * y ^ 2 / Real.log (sjArg y roughness diameter) ^ 2 := by
    rw [sj_eq]
    simp only [Real.logb]
    field_simp
  have hlx2 : 0 < Real.log (sjArg x roughness diameter) ^ 2 :=
    pow_two_pos_of_ne_zero hlxne
  have hly2 : 0 < Real.log (sjArg y roughness diameter) ^ 2 :=
    pow_two_pos_of_ne_zero hlyne
  rw [hfx, hfy, div_le_div_iff hlx2 hly2]
  have hsq : x ^ 2 * Real.log (sjArg y roughness diameter) ^ 2 ≤
      y ^ 2 * Real.log (sjArg x roughness diameter) ^ 2 := by nlinarith [hK4]
  nlinarith [mul_le_mul_of_nonneg_left hsq
    (by positivity : (0 : ℝ) ≤ 0.25 * Real.log 10 ^ 2)]

/-- In the validity domain the Swamee–Jain factor at `Re = 4000` is at
least 0.04, in particular above the laminar `64/2300 ≈ 0.0278`, so the
transitional interpolation slope is nonnegative. -/
theorem sj4000_ge {roughness diameter : ℝ} (hr : 0 ≤ roughness) (hD : 0 < diameter)
    (hrel : roughness / diameter ≤ 0.01) :
    0.04 ≤ friction_factor_turbulent 4000 roughness diameter .swameeJain := by
  rw [sj_eq]
  have hApos : 0 < sjArg 4000 roughness diameter := sjArg_pos hr hD (by norm_num)
  have hAub : sjArg 4000 roughness diameter ≤ 0.0063 := sjArg_ub hr hD hrel (le_refl _)
  have hAlb : (5.74 : ℝ) / 1747 ≤ sjArg 4000 roughness diameter := by
    unfold sjArg
    have hp : (0 : ℝ) < (4000 : ℝ) ^ (0.9 : ℝ) := Real.rpow_pos_of_pos (by norm_num) _
    have h1 : (5.74 : ℝ) / 1747 ≤ 5.74 / (4000 : ℝ) ^ (0.9 : ℝ) := by
      apply div_le_div_of_nonneg_left (by norm_num) hp rpow09_4000_ub
    have h2 : (0 : ℝ) ≤ roughness / diameter / 3.7 := by positivity
    linarith
  have hl10 : 0 < Real.log 10 := Real.log_pos (by norm_num)
  -- |log A| ≤ log (1747/5.74) ≤ 2.5 * log 10
  have hlogA_ub : Real.log (sjArg 4000 roughness diameter) < 0 :=
    Real.log_neg hApos (by linarith)
  have hlogA_lb : -(2.5 * Real.log 10) ≤ Real.log (sjArg 4000 roughness diameter) := by
    have h3 : -Real.log (sjArg 4000 roughness diameter) =
        Real.log (sjArg 4000 roughness diameter)⁻¹ := (Real.log_inv _).symm
    have h4 : Real.log (sjArg 4000 roughness diameter)⁻¹ ≤ Real.log (1747 / 5.74) := by
      apply Real.log_le_log (by positivity)
      rw [inv_le_comm₀ hApos (by norm_num)]
      calc (1747 / 5.74 : ℝ)⁻¹ = 5.74 / 1747 := by norm_num
        _ ≤ sjArg 4000 roughness diameter := hAlb
    have h5 : 2 * Real.log (1747 / 5.74) ≤ 5 * Real.log 10 := by
      have h6 : Real.log ((1747 / 5.74 : ℝ) ^ (2 : ℕ)) ≤ Real.log ((10 : ℝ) ^ (5 : ℕ)) :=
        Real.log_le_log (by positivity) (by norm_num)
      rw [Real.log_pow, Real.log_pow] at h6
      push_cast at h6
      linarith
    linarith
  have hlogb_lb : -2.5 ≤ Real.logb 10 (sjArg 4000 roughness diameter) := by
    rw [Real.logb, le_div_iff hl10]
    linarith
  have hlogb_ub : Real.logb 10 (sjArg 4000 roughness diameter) < 0 :=
    div_neg_of_neg_of_pos hlogA_ub hl10
  have hsq : Real.logb 10 (sjArg 4000 roughness diameter) ^ 2 ≤ 6.25 := by
    have := sq_le_sq' hlogb_lb (le_of_lt (lt_of_lt_of_le hlogb_ub (by norm_num)))
    calc Real.logb 10 (sjArg 4000 roughness diameter) ^ 2 ≤ (2.5 : ℝ) ^ 2 := this
      _ = 6.25 := by norm_num
  have hsqpos : 0 < Real.logb 10 (sjArg 4000 roughness diameter) ^ 2 :=
    pow_two_pos_of_ne_zero (ne_of_lt hlogb_ub)
  calc (0.04 : ℝ) = 0.25 / 6.25 := by norm_num
    _ ≤ 0.25 / Real.logb 10 (sjArg 4000 roughness diameter) ^ 2 := by gcongr

/-- Helper form of the transitional branch (used by several claims). -/
theorem friction_factor_mid (Re roughness diameter : ℝ) (method : FFMethod)
    (h1 : 2300 ≤ Re) (h2 : Re ≤ 4000) :
    friction_factor Re roughness diameter method =
      friction_factor_laminar 2300 +
        (friction_factor_turbulent 4000 roughness diameter method -
          friction_factor_laminar 2300) * (Re - 2300) / 1700 := by
  unfold friction_factor
  rw [if_neg (not_lt.mpr h1), if_neg (not_lt.mpr h2)]
  norm_num

/-- In the laminar range `f(Re) * Re² = 64 * Re` (also at `Re = 0`, where
the Lean convention `64/0 = 0` makes both sides 0). -/
theorem g_lam (Re roughness diameter : ℝ) (method : FFMethod)
    (h0 : 0 ≤ Re) (h1 : Re < 2300) :
    friction_factor Re roughness diameter method * Re ^ 2 = 64 * Re := by
  unfold friction_factor friction_factor_laminar
  rw [if_pos h1]
  rcases eq_or_lt_of_le h0 with h | h
  · rw [← h]; norm_num
  · field_simp
    ring

/-- Value of `f(Re) * Re²` at the laminar/transitional boundary. -/
theorem g2300 (roughness diameter : ℝ) (method : FFMethod) :
    friction_factor 2300 roughness diameter method * 2300 ^ 2 = 64 * 2300 := by
  unfold friction_factor friction_factor_laminar
  norm_num

/-- At `Re = 4000` the interpolation weight is 1 and the transitional
branch returns exactly the turbulent value. -/
theorem ff4000 (roughness diameter : ℝ) (method : FFMethod) :
    friction_factor 4000 roughness diameter method =
      friction_factor_turbulent 4000 roughness diameter method := by
  unfold friction_factor friction_factor_laminar
  norm_num

/-- Strictly above 4000 the dispatcher returns the turbulent branch. -/
theorem ff_turb (Re roughness diameter : ℝ) (method : FFMethod) (h : 4000 < Re) :
    friction_factor Re roughness diameter method =
      friction_factor_turbulent Re roughness diameter method := by
  unfold friction_factor
  rw [if_neg (by linarith), if_pos h]

/-- `f(Re) * Re²` is monotone across the transitional band: the
interpolation slope is nonnegative (since `f_turb(4000) ≥ 0.04 > 64/2300`)
and `Re²` grows. -/
theorem g_trans_mono {roughness diameter : ℝ} (hr : 0 ≤ roughness) (hD : 0 < diameter)
    (hrel : roughness / diameter ≤ 0.01) {x y : ℝ}
    (h1 : 2300 ≤ x) (hxy : x ≤ y) (h2 : y ≤ 4000) :
    friction_factor x roughness diameter .swameeJain * x ^ 2 ≤
      friction_factor y roughness diameter .swameeJain * y ^ 2 := by
  have hs := sj4000_ge hr hD hrel
  have ha : (64 : ℝ) / 2300 ≤ 0.04 := by norm_num
  have hflam : friction_factor_laminar 2300 = 64 / 2300 := by
    unfold friction_factor_laminar
    norm_num
  rw [friction_factor_mid x roughness diameter _ h1 (le_trans hxy h2),
    friction_factor_mid y roughness diameter _ (le_trans h1 hxy) h2, hflam]
  have hslope : 0 ≤ friction_factor_turbulent 4000 roughness diameter .swameeJain -
      64 / 2300 := by linarith
  have hfmono : 64 / 2300 +
      (friction_factor_turbulent 4000 roughness diameter .swameeJain - 64 / 2300) *
        (x - 2300) / 1700 ≤
      64 / 2300 +
        (friction_factor_turbulent 4000 roughness diameter .swameeJain - 64 / 2300) *
          (y - 2300) / 1700 := by
    have : (friction_factor_turbulent 4000 roughness diameter .swameeJain - 64 / 2300) *
        (x - 2300) ≤
        (friction_factor_turbulent 4000 roughness diameter .swameeJain - 64 / 2300) *
          (y - 2300) := mul_le_mul_of_nonneg_left (by linarith) hslope
    linarith
  have hfx_nonneg : 0 ≤ 64 / 2300 +
      (friction_factor_turbulent 4000 roughness diameter .swameeJain - 64 / 2300) *
        (x - 2300) / 1700 := by
    have h3 : 0 ≤ (friction_factor_turbulent 4000 roughness diameter .swameeJain -
        64 / 2300) * (x - 2300) / 1700 := by
      apply div_nonneg (mul_nonneg hslope (by linarith)) (by norm_num)
    linarith
  have hsq : x ^ 2 ≤ y ^ 2 := pow_le_pow_left₀ (by linarith) hxy 2
  exact mul_le_mul hfmono hsq (by positivity) (by linarith [hfmono])

/-- Master lemma for C9: `f(Re) * Re²` is monotone on all of `[0, ∞)`,
across the laminar, transitional and turbulent regimes, inside the
correlation's validity domain. -/
theorem g_mono {roughness diameter : ℝ} (hr : 0 ≤ roughness) (hD : 0 < diameter)
    (hrel : roughness / diameter ≤ 0.01) {x y : ℝ} (hx0 : 0 ≤ x) (hxy : x ≤ y) :
    friction_factor x roughness diameter .swameeJain * x ^ 2 ≤
      friction_factor y roughness diameter .swameeJain * y ^ 2 := by
  have h2300 : friction_factor 2300 roughness diameter .swameeJain * 2300 ^ 2 =
      64 * 2300 := g2300 roughness diameter _
  have h4000g : friction_factor 4000 roughness diameter .swameeJain * 4000 ^ 2 =
      friction_factor_turbulent 4000 roughness diameter .swameeJain * 4000 ^ 2 := by
    rw [ff4000]
  rcases lt_or_ge x 2300 with hx1 | hx1
  · have hgx : friction_factor x roughness diameter .swameeJain * x ^ 2 = 64 * x :=
      g_lam x roughness diameter _ hx0 hx1
    rcases lt_or_ge y 2300 with hy1 | hy1
    · rw [hgx, g_lam y roughness diameter _ (le_trans hx0 hxy) hy1]
      linarith
    · rcases le_or_lt y 4000 with hy2 | hy2
      · have h4 := g_trans_mono hr hD hrel (le_refl 2300) hy1 hy2
        rw [h2300] at h4
        linarith [hgx, h4]
      · have h4 := g_trans_mono hr hD hrel (le_refl 2300) (by norm_num) (le_refl 4000)
        rw [h2300, h4000g] at h4
        have h6 := sj_mul_sq_mono hr hD hrel (le_refl 4000) (le_of_lt hy2)
        rw [ff_turb y roughness diameter _ hy2]
        linarith [hgx, h4, h6]
  · rcases le_or_lt y 4000 with hy2 | hy2
    · exact g_trans_mono hr hD hrel hx1 hxy hy2
    · rcases le_or_lt x 4000 with hx2 | hx2
      · have h4 := g_trans_mono hr hD hrel hx1 hx2 (le_refl 4000)
        rw [h4000g] at h4
        have h6 := sj_mul_sq_mono hr hD hrel (le_refl 4000) (le_of_lt hy2)
        rw [ff_turb y roughness diameter _ hy2]
        linarith [h4, h6]
      · have h6 := sj_mul_sq_mono hr hD hrel (le_of_lt hx2) hxy
        rw [ff_turb x roughness diameter _ hx2, ff_turb y roughness diameter _
          (lt_of_lt_of_le hx2 hxy)]
        exact h6

/-! ## C9: pressure drop is monotone in the flow -/

/-- C9 (amended).  For fixed, positive pipe length, diameter, density and
viscosity, nonnegative roughness within the Swamee–Jain validity domain
(`ε/D ≤ 0.01`), the Darcy–Weisbach pressure drop is monotone non-decreasing
in the velocity (equivalently in `Q = v·A`), across the laminar,
transitional and turbulent regimes. -/
theorem C9_pressure_drop_monotone (length diameter roughness rho mu : ℝ)
    (hL : 0 ≤ length) (hD : 0 < diameter) (hr : 0 ≤ roughness)
    (hrel : roughness / diameter ≤ 0.01) (hrho : 0 < rho) (hmu : 0 < mu)
    (v₁ v₂ : ℝ) (hv0 : 0 ≤ v₁) (hv12 : v₁ ≤ v₂) :
    (pressure_drop_darcy_weisbach v₁ length diameter roughness rho mu).1 ≤
      (pressure_drop_darcy_weisbach v₂ length diameter roughness rho mu).1 := by
  have hRe1 : reynolds_number v₁ diameter rho mu = rho * diameter / mu * v₁ := by
    unfold reynolds_number
    ring
  have hRe2 : reynolds_number v₂ diameter rho mu = rho * diameter / mu * v₂ := by
    unfold reynolds_number
    ring
  have hk : 0 < rho * diameter / mu := by positivity
  have hRe1n : 0 ≤ reynolds_number v₁ diameter rho mu := by
    rw [hRe1]
    positivity
  have hRemono : reynolds_number v₁ diameter rho mu ≤ reynolds_number v₂ diameter rho mu := by
    rw [hRe1, hRe2]
    exact mul_le_mul_of_nonneg_left hv12 hk.le
  have hg := g_mono hr hD hrel hRe1n hRemono
  have key : ∀ v : ℝ,
      (pressure_drop_darcy_weisbach v length diameter roughness rho mu).1 =
        length / diameter * (rho / 2) * (mu / (rho * diameter)) ^ 2 *
          (friction_factor (reynolds_number v diameter rho mu) roughness diameter
              .swameeJain * reynolds_number v diameter rho mu ^ 2) := by
    intro v
    show friction_factor (reynolds_number v diameter rho mu) roughness diameter
        .swameeJain * (length / diameter) * (rho * v ^ 2 / 2) = _
    unfold reynolds_number
    field_simp
    ring
  rw [key v₁, key v₂]
  exact mul_le_mul_of_nonneg_left hg (by positivity)

/-- Witness for C9 (amended): commercial steel DN50 pipe, 10 m, velocities
1 and 2 m/s. -/
theorem C9_pressure_drop_monotone_witness :
    (pressure_drop_darcy_weisbach 1 10 0.05 0.000045 998 1.002e-3).1 ≤
      (pressure_drop_darcy_weisbach 2 10 0.05 0.000045 998 1.002e-3).1 :=
  C9_pressure_drop_monotone 10 0.05 0.000045 998 1.002e-3 (by norm_num) (by norm_num)
    (by norm_num) (by norm_num) (by norm_num) (by norm_num) 1 2 (by norm_num) (by norm_num)

set_option maxHeartbeats 1000000 in
/-- Counterexample to C9 as stated ("for every roughness"): with the
pathological relative roughness `ε/D = 3.7·(1 - 5.74/5000^0.9) ≈ 3.69` the
Swamee–Jain log argument crosses 1 at `Re = 5000`, the correlation blows up
just above the pole, and the pressure drop strictly DECREASES between the
velocities realising `Re = 5100` and `Re = 10000` (fixed `L = D = 1`,
water properties). -/
theorem C9_counterexample :
    (5100 * 1.002e-3 / 998 : ℝ) < 10000 * 1.002e-3 / 998 ∧
      (pressure_drop_darcy_weisbach (10000 * 1.002e-3 / 998) 1 1
          (3.7 * (1 - 5.74 / (5000 : ℝ) ^ (0.9 : ℝ))) 998 1.002e-3).1 <
        (pressure_drop_darcy_weisbach (5100 * 1.002e-3 / 998) 1 1
          (3.7 * (1 - 5.74 / (5000 : ℝ) ^ (0.9 : ℝ))) 998 1.002e-3).1 := by
  constructor
  · norm_num
  set P := (5000 : ℝ) ^ (0.9 : ℝ) with hPdef
  set Q1 := (5100 : ℝ) ^ (0.9 : ℝ) with hQ1def
  set Q2 := (10000 : ℝ) ^ (0.9 : ℝ) with hQ2def
  have hP0 : 0 < P := Real.rpow_pos_of_pos (by norm_num) _
  have hQ10 : 0 < Q1 := Real.rpow_pos_of_pos (by norm_num) _
  have hQ20 : 0 < Q2 := Real.rpow_pos_of_pos (by norm_num) _
  have hP_lb : (2000 : ℝ) ≤ P := by
    have h01 : (5000 : ℝ) ^ (0.1 : ℝ) ≤ 2.5 :=
      rpow_tenth_le (by norm_num) (by norm_num) (by norm_num)
    rw [hPdef, rpow09_eq_div (by norm_num)]
    calc (2000 : ℝ) = 5000 / 2.5 := by norm_num
      _ ≤ 5000 / (5000 : ℝ) ^ (0.1 : ℝ) := by gcongr
  have hP_ub : P ≤ 2184 := by
    have h01 : (2.29 : ℝ) ≤ (5000 : ℝ) ^ (0.1 : ℝ) :=
      le_rpow_tenth (by norm_num) (by norm_num) (by norm_num)
    rw [hPdef, rpow09_eq_div (by norm_num)]
    calc (5000 : ℝ) / (5000 : ℝ) ^ (0.1 : ℝ) ≤ 5000 / 2.29 := by gcongr
      _ ≤ 2184 := by norm_num
  have hQ2_lb : (3968 : ℝ) ≤ Q2 := by
    have h01 : (10000 : ℝ) ^ (0.1 : ℝ) ≤ 2.52 :=
      rpow_tenth_le (by norm_num) (by norm_num) (by norm_num)
    rw [hQ2def, rpow09_eq_div (by norm_num)]
    calc (3968 : ℝ) ≤ 10000 / 2.52 := by norm_num
      _ ≤ 10000 / (10000 : ℝ) ^ (0.1 : ℝ) := by gcongr
  have hPQ1 : P < Q1 := Real.rpow_lt_rpow (by norm_num) (by norm_num) (by norm_num)
  -- the two Swamee–Jain arguments, written as 1 - δ
  have hA1 : sjArg 5100 (3.7 * (1 - 5.74 / P)) 1 = 1 - (5.74 / P - 5.74 / Q1) := by
    unfold sjArg
    rw [hQ1def]
    ring
  have hA2 : sjArg 10000 (3.7 * (1 - 5.74 / P)) 1 = 1 - (5.74 / P - 5.74 / Q2) := by
    unfold sjArg
    rw [hQ2def]
    ring
  -- bounds on δ₁ (tiny) and δ₂ (substantial)
  have hd1pos : 0 < 5.74 / P - 5.74 / Q1 := by
    have h := div_lt_div_of_pos_left (by norm_num : (0 : ℝ) < 5.74) hP0 hPQ1
    linarith
  have hPQ1frac : (50 : ℝ) / 51 ≤ P / Q1 := by
    have hr1 : ((5000 : ℝ) / 5100) ≤ ((5000 : ℝ) / 5100) ^ (0.9 : ℝ) := by
      have h := Real.rpow_le_rpow_of_exponent_ge (x := (5000 : ℝ) / 5100)
        (by norm_num) (by norm_num) (by norm_num : (0.9 : ℝ) ≤ 1)
      simpa [Real.rpow_one] using h
    have hdiv : ((5000 : ℝ) / 5100) ^ (0.9 : ℝ) = P / Q1 := by
      rw [hPdef, hQ1def, Real.div_rpow (by norm_num) (by norm_num)]
    have h50 : ((5000 : ℝ) / 5100) = 50 / 51 := by norm_num
    rw [← h50, ← hdiv]
    exact hr1
  have hd1ub : 5.74 / P - 5.74 / Q1 ≤ 6e-5 := by
    have heq : 5.74 / P - 5.74 / Q1 = 5.74 / P * (1 - P / Q1) := by
      field_simp
      ring
    have h1 : (1 : ℝ) - P / Q1 ≤ 1 / 51 := by linarith
    have h1n : (0 : ℝ) ≤ 1 - P / Q1 := by
      have : P / Q1 ≤ 1 := (div_le_one hQ10).mpr hPQ1.le
      linarith
    have h2 : (5.74 : ℝ) / P ≤ 5.74 / 2000 := by gcongr
    calc 5.74 / P - 5.74 / Q1 = 5.74 / P * (1 - P / Q1) := heq
      _ ≤ 5.74 / 2000 * (1 / 51) := by
          exact mul_le_mul h2 h1 h1n (by norm_num)
      _ ≤ 6e-5 := by norm_num
  have hd2lb : (0.00118 : ℝ) ≤ 5.74 / P - 5.74 / Q2 := by
    have hPQ2 : P / Q2 ≤ 2184 / 3968 := div_le_div (by norm_num) hP_ub (by norm_num) hQ2_lb
    have heq : 5.74 / P - 5.74 / Q2 = 5.74 / P * (1 - P / Q2) := by
      field_simp
      ring
    have h1 : (1 : ℝ) - 2184 / 3968 ≤ 1 - P / Q2 := by linarith
    have h2 : (5.74 : ℝ) / 2184 ≤ 5.74 / P := by gcongr
    calc (0.00118 : ℝ) ≤ 5.74 / 2184 * (1 - 2184 / 3968) := by norm_num
      _ ≤ 5.74 / P * (1 - P / Q2) := by
          exact mul_le_mul h2 h1 (by norm_num) (by positivity)
      _ = 5.74 / P - 5.74 / Q2 := heq.symm
  have hd2ub : 5.74 / P - 5.74 / Q2 ≤ 0.00287 := by
    have h1 : (0 : ℝ) < 5.74 / Q2 := by positivity
    have h2 : (5.74 : ℝ) / P ≤ 5.74 / 2000 := by gcongr
    linarith
  -- positivity and log bounds for the two arguments
  have hA1pos : 0 < sjArg 5100 (3.7 * (1 - 5.74 / P)) 1 := by
    rw [hA1]; linarith
  have hA1lt1 : sjArg 5100 (3.7 * (1 - 5.74 / P)) 1 < 1 := by
    rw [hA1]; linarith
  have hA2pos : 0 < sjArg 10000 (3.7 * (1 - 5.74 / P)) 1 := by
    rw [hA2]; linarith
  have hA2lt1 : sjArg 10000 (3.7 * (1 - 5.74 / P)) 1 < 1 := by
    rw [hA2]; linarith
  have hlnA1neg : Real.log (sjArg 5100 (3.7 * (1 - 5.74 / P)) 1) < 0 :=
    Real.log_neg hA1pos hA1lt1
  have hlnA2neg : Real.log (sjArg 10000 (3.7 * (1 - 5.74 / P)) 1) < 0 :=
    Real.log_neg hA2pos hA2lt1
  have hlnA1 : -Real.log (sjArg 5100 (3.7 * (1 - 5.74 / P)) 1) ≤ 6.1e-5 := by
    have hx := Real.log_le_sub_one_of_pos (inv_pos.mpr hA1pos)
    rw [Real.log_inv] at hx
    have hA1ge : (0.9999 : ℝ) ≤ sjArg 5100 (3.7 * (1 - 5.74 / P)) 1 := by
      rw [hA1]; linarith
    have hgen : ∀ a : ℝ, a ≠ 0 → a⁻¹ - 1 = (1 - a) / a := by
      intro a ha
      field_simp
    have hinv : (sjArg 5100 (3.7 * (1 - 5.74 / P)) 1)⁻¹ - 1 =
        (1 - sjArg 5100 (3.7 * (1 - 5.74 / P)) 1) /
          sjArg 5100 (3.7 * (1 - 5.74 / P)) 1 :=
      hgen _ (ne_of_gt hA1pos)
    have hfr : (1 - sjArg 5100 (3.7 * (1 - 5.74 / P)) 1) /
        sjArg 5100 (3.7 * (1 - 5.74 / P)) 1 ≤ 6e-5 / 0.9999 := by
      apply div_le_div (by norm_num) _ (by norm_num) hA1ge
      rw [hA1]; linarith
    have : (6e-5 : ℝ) / 0.9999 ≤ 6.1e-5 := by norm_num
    linarith
  have hlnA2 : (0.00118 : ℝ) ≤ -Real.log (sjArg 10000 (3.7 * (1 - 5.74 / P)) 1) := by
    have hx := Real.log_le_sub_one_of_pos hA2pos
    rw [hA2] at hx
    rw [hA2]
    linarith
  -- the decisive strict inequality between the two sides
  have hkey : (10000 * 1.002e-3 / 998 : ℝ) *
      (-Real.log (sjArg 5100 (3.7 * (1 - 5.74 / P)) 1)) <
      (5100 * 1.002e-3 / 998 : ℝ) *
        (-Real.log (sjArg 10000 (3.7 * (1 - 5.74 / P)) 1)) := by
    have h1 : (10000 * 1.002e-3 / 998 : ℝ) *
        (-Real.log (sjArg 5100 (3.7 * (1 - 5.74 / P)) 1)) ≤
        (10000 * 1.002e-3 / 998 : ℝ) * 6.1e-5 :=
      mul_le_mul_of_nonneg_left hlnA1 (by norm_num)
    have h2 : (5100 * 1.002e-3 / 998 : ℝ) * 0.00118 ≤
        (5100 * 1.002e-3 / 998 : ℝ) *
          (-Real.log (sjArg 10000 (3.7 * (1 - 5.74 / P)) 1)) :=
      mul_le_mul_of_nonneg_left hlnA2 (by norm_num)
    have h3 : (10000 * 1.002e-3 / 998 : ℝ) * 6.1e-5 <
        (5100 * 1.002e-3 / 998 : ℝ) * 0.00118 := by norm_num
    linarith
  have hkeysq : ((10000 * 1.002e-3 / 998 : ℝ) *
      (-Real.log (sjArg 5100 (3.7 * (1 - 5.74 / P)) 1))) *
      ((10000 * 1.002e-3 / 998 : ℝ) *
        (-Real.log (sjArg 5100 (3.7 * (1 - 5.74 / P)) 1))) <
      ((5100 * 1.002e-3 / 998 : ℝ) *
        (-Real.log (sjArg 10000 (3.7 * (1 - 5.74 / P)) 1))) *
        ((5100 * 1.002e-3 / 998 : ℝ) *
          (-Real.log (sjArg 10000 (3.7 * (1 - 5.74 / P)) 1))) :=
    mul_self_lt_mul_self (mul_nonneg (by norm_num) (by linarith)) hkey
  -- Reynolds numbers at the two velocities
  have hRe1 : reynolds_number (5100 * 1.002e-3 / 998) 1 998 1.002e-3 = 5100 := by
    unfold reynolds_number
    norm_num
  have hRe2 : reynolds_number (10000 * 1.002e-3 / 998) 1 998 1.002e-3 = 10000 := by
    unfold reynolds_number
    norm_num
  have hl10 : 0 < Real.log 10 := Real.log_pos (by norm_num)
  -- closed form of the two pressure drops
  have hdp : ∀ (u Re' : ℝ), reynolds_number u 1 998 1.002e-3 = Re' → 4000 < Re' →
      Real.log (sjArg Re' (3.7 * (1 - 5.74 / P)) 1) ≠ 0 →
      (pressure_drop_darcy_weisbach u 1 1 (3.7 * (1 - 5.74 / P)) 998 1.002e-3).1 =
        0.25 * Real.log 10 ^ 2 * (998 * u ^ 2 / 2) /
          Real.log (sjArg Re' (3.7 * (1 - 5.74 / P)) 1) ^ 2 := by
    intro u Re' hR hgt hne
    show friction_factor (reynolds_number u 1 998 1.002e-3) (3.7 * (1 - 5.74 / P)) 1
        .swameeJain * ((1 : ℝ) / 1) * (998 * u ^ 2 / 2) = _
    rw [hR, ff_turb _ _ _ _ hgt, sj_eq]
    simp only [Real.logb]
    field_simp
    ring
  rw [hdp _ 10000 hRe2 (by norm_num) (ne_of_lt hlnA2neg),
    hdp _ 5100 hRe1 (by norm_num) (ne_of_lt hlnA1neg),
    div_lt_div_iff (pow_two_pos_of_ne_zero (ne_of_lt hlnA2neg))
      (pow_two_pos_of_ne_zero (ne_of_lt hlnA1neg))]
  have hXY : (10000 * 1.002e-3 / 998 : ℝ) ^ 2 *
      Real.log (sjArg 5100 (3.7 * (1 - 5.74 / P)) 1) ^ 2 <
      (5100 * 1.002e-3 / 998 : ℝ) ^ 2 *
        Real.log (sjArg 10000 (3.7 * (1 - 5.74 / P)) 1) ^ 2 := by
    nlinarith [hkeysq]
  have hc : (0 : ℝ) < 0.25 * Real.log 10 ^ 2 * (998 / 2) := by positivity
  nlinarith [mul_lt_mul_of_pos_left hXY hc]

/-! ## C5: continuity at the regime boundaries -/

/-- The dispatcher is continuous at `Re = 2300`: the transitional value at
2300 coincides with the laminar one, and the interpolation is affine. -/
theorem ff_continuousAt_2300 (roughness diameter : ℝ) :
    ContinuousAt (fun Re : ℝ =>
      friction_factor Re roughness diameter .swameeJain) 2300 := by
  have hGcont : Continuous (fun Re : ℝ =>
      friction_factor_laminar 2300 +
        (friction_factor_turbulent 4000 roughness diameter .swameeJain -
          friction_factor_laminar 2300) * (Re - 2300) / 1700) := by
    apply Continuous.add continuous_const
    exact (Continuous.mul continuous_const (Continuous.sub continuous_id
      continuous_const)).div_const _
  have hval : friction_factor 2300 roughness diameter .swameeJain = 64 / 2300 := by
    unfold friction_factor friction_factor_laminar
    norm_num
  have hleft : ContinuousWithinAt (fun Re : ℝ =>
      friction_factor Re roughness diameter .swameeJain) (Set.Iic 2300) 2300 := by
    have hL : ContinuousWithinAt (fun Re : ℝ => 64 / Re) (Set.Iic 2300) 2300 :=
      ((continuousAt_const.div continuousAt_id (by norm_num)).continuousWithinAt)
    apply hL.congr
    · intro z hz
      rcases lt_or_eq_of_le (Set.mem_Iic.mp hz) with h | h
      · unfold friction_factor friction_factor_laminar
        rw [if_pos h]
        norm_num
      · subst h
        rw [hval]
    · rw [hval]
  have hright : ContinuousWithinAt (fun Re : ℝ =>
      friction_factor Re roughness diameter .swameeJain) (Set.Ici 2300) 2300 := by
    apply ContinuousWithinAt.congr_of_eventuallyEq
      (hGcont.continuousAt.continuousWithinAt)
    · have h1 : Set.Iio (4000 : ℝ) ∈ 𝓝[Set.Ici 2300] (2300 : ℝ) :=
        nhdsWithin_le_nhds (Iio_mem_nhds (by norm_num))
      have h2 : Set.Ici (2300 : ℝ) ∈ 𝓝[Set.Ici 2300] (2300 : ℝ) := self_mem_nhdsWithin
      filter_upwards [h1, h2] with z hz1 hz2
      exact friction_factor_mid z roughness diameter _ hz2 (le_of_lt hz1)
    · exact friction_factor_mid 2300 roughness diameter _ (le_refl _) (by norm_num)
  have hu := hleft.union hright
  rw [Set.Iic_union_Ici] at hu
  exact continuousWithinAt_univ _ _ |>.mp hu

/-- In the validity domain the Swamee–Jain branch is continuous at
`Re = 4000` (its log argument is positive and below 1, so the `log10` is
continuous and nonzero there). -/
theorem sj_continuousAt_4000 {roughness diameter : ℝ} (hr : 0 ≤ roughness)
    (hD : 0 < diameter) (hrel : roughness / diameter ≤ 0.01) :
    ContinuousAt (fun Re : ℝ =>
      friction_factor_turbulent Re roughness diameter .swameeJain) 4000 := by
  have hA4pos : 0 < sjArg 4000 roughness diameter := sjArg_pos hr hD (by norm_num)
  have hA4lt1 : sjArg 4000 roughness diameter < 1 :=
    lt_of_le_of_lt (sjArg_ub hr hD hrel (le_refl _)) (by norm_num)
  have hargcont : ContinuousAt (fun Re : ℝ => sjArg Re roughness diameter) 4000 := by
    unfold sjArg
    apply ContinuousAt.add continuousAt_const
    exact ContinuousAt.div continuousAt_const
      (Real.continuousAt_rpow_const 4000 0.9 (Or.inl (by norm_num)))
      (ne_of_gt (Real.rpow_pos_of_pos (by norm_num) _))
  have hl10 : 0 < Real.log 10 := Real.log_pos (by norm_num)
  have hlogbcont : ContinuousAt (fun Re : ℝ =>
      Real.logb 10 (sjArg Re roughness diameter)) 4000 := by
    have hlog : ContinuousAt (fun t : ℝ => Real.log t)
        (sjArg 4000 roughness diameter) := Real.continuousAt_log (ne_of_gt hA4pos)
    have hcomp : ContinuousAt ((fun t : ℝ => Real.log t) ∘
        (fun Re : ℝ => sjArg Re roughness diameter)) 4000 :=
      ContinuousAt.comp hlog hargcont
    simpa [Real.logb, Function.comp] using hcomp.div_const (Real.log 10)
  have hlbne : Real.logb 10 (sjArg 4000 roughness diameter) ≠ 0 := by
    have hneg : Real.log (sjArg 4000 roughness diameter) < 0 :=
      Real.log_neg hA4pos hA4lt1
    exact ne_of_lt (div_neg_of_neg_of_pos hneg hl10)
  have hsj : (fun Re : ℝ => friction_factor_turbulent Re roughness diameter
      .swameeJain) = fun Re : ℝ =>
        0.25 / Real.logb 10 (sjArg Re roughness diameter) ^ 2 :=
    funext fun Re => sj_eq Re roughness diameter
  rw [hsj]
  exact ContinuousAt.div continuousAt_const (hlogbcont.pow 2) (pow_ne_zero 2 hlbne)

/-- The dispatcher is continuous at `Re = 4000` inside the validity
domain: the interpolation reaches exactly the turbulent value at 4000. -/
theorem ff_continuousAt_4000 {roughness diameter : ℝ} (hr : 0 ≤ roughness)
    (hD : 0 < diameter) (hrel : roughness / diameter ≤ 0.01) :
    ContinuousAt (fun Re : ℝ =>
      friction_factor Re roughness diameter .swameeJain) 4000 := by
  have hGcont : Continuous (fun Re : ℝ =>
      friction_factor_laminar 2300 +
        (friction_factor_turbulent 4000 roughness diameter .swameeJain -
          friction_factor_laminar 2300) * (Re - 2300) / 1700) := by
    apply Continuous.add continuous_const
    exact (Continuous.mul continuous_const (Continuous.sub continuous_id
      continuous_const)).div_const _
  have hleft : ContinuousWithinAt (fun Re : ℝ =>
      friction_factor Re roughness diameter .swameeJain) (Set.Iic 4000) 4000 := by
    apply ContinuousWithinAt.congr_of_eventuallyEq
      (hGcont.continuousAt.continuousWithinAt)
    · have h1 : Set.Ioi (2300 : ℝ) ∈ 𝓝[Set.Iic 4000] (4000 : ℝ) :=
        nhdsWithin_le_nhds (Ioi_mem_nhds (by norm_num))
      have h2 : Set.Iic (4000 : ℝ) ∈ 𝓝[Set.Iic 4000] (4000 : ℝ) := self_mem_nhdsWithin
      filter_upwards [h1, h2] with z hz1 hz2
      exact friction_factor_mid z roughness diameter _ (le_of_lt hz1) hz2
    · exact friction_factor_mid 4000 roughness diameter _ (by norm_num) (le_refl _)
  have hright : ContinuousWithinAt (fun Re : ℝ =>
      friction_factor Re roughness diameter .swameeJain) (Set.Ici 4000) 4000 := by
    apply ContinuousWithinAt.congr
      ((sj_continuousAt_4000 hr hD hrel).continuousWithinAt)
    · intro z hz
      rcases lt_or_eq_of_le (Set.mem_Ici.mp hz) with h | h
      · exact ff_turb z roughness diameter _ h
      · rw [← h]
        exact ff4000 roughness diameter _
    · exact ff4000 roughness diameter _
  have hu := hleft.union hright
  rw [Set.Iic_union_Ici] at hu
  exact continuousWithinAt_univ _ _ |>.mp hu

/-- C5 (amended).  For every roughness and diameter inside the
correlation's validity domain (`0 ≤ ε`, `0 < D`, `ε/D ≤ 0.01`) and every
tolerance, the friction factor returned just below and just above each
regime boundary (2300 and 4000) differs by less than the tolerance for
Reynolds numbers close enough to the boundary: the interpolation design
makes `friction_factor` continuous there. -/
theorem C5_boundary_continuity (roughness diameter : ℝ) (hr : 0 ≤ roughness)
    (hD : 0 < diameter) (hrel : roughness / diameter ≤ 0.01)
    (tol : ℝ) (htol : 0 < tol) :
    ∃ δ : ℝ, 0 < δ ∧
      (∀ x y : ℝ, |x - 2300| < δ → |y - 2300| < δ →
        |friction_factor x roughness diameter .swameeJain -
          friction_factor y roughness diameter .swameeJain| < tol) ∧
      (∀ x y : ℝ, |x - 4000| < δ → |y - 4000| < δ →
        |friction_factor x roughness diameter .swameeJain -
          friction_factor y roughness diameter .swameeJain| < tol) := by
  obtain ⟨δ₁, hδ₁, h₁⟩ := Metric.continuousAt_iff.mp
    (ff_continuousAt_2300 roughness diameter) (tol / 2) (by linarith)
  obtain ⟨δ₂, hδ₂, h₂⟩ := Metric.continuousAt_iff.mp
    (ff_continuousAt_4000 hr hD hrel) (tol / 2) (by linarith)
  refine ⟨min δ₁ δ₂, lt_min hδ₁ hδ₂, ?_, ?_⟩
  · intro x y hx hy
    have ex := h₁ (show dist x 2300 < δ₁ by
      rw [Real.dist_eq]; exact lt_of_lt_of_le hx (min_le_left _ _))
    have ey := h₁ (show dist y 2300 < δ₁ by
      rw [Real.dist_eq]; exact lt_of_lt_of_le hy (min_le_left _ _))
    have htri := dist_triangle (friction_factor x roughness diameter .swameeJain)
      (friction_factor 2300 roughness diameter .swameeJain)
      (friction_factor y roughness diameter .swameeJain)
    rw [dist_comm] at ey
    calc |friction_factor x roughness diameter .swameeJain -
        friction_factor y roughness diameter .swameeJain| =
        dist (friction_factor x roughness diameter .swameeJain)
          (friction_factor y roughness diameter .swameeJain) := (Real.dist_eq _ _).symm
      _ ≤ _ + _ := htri
      _ < tol / 2 + tol / 2 := add_lt_add ex ey
      _ = tol := by ring
  · intro x y hx hy
    have ex := h₂ (show dist x 4000 < δ₂ by
      rw [Real.dist_eq]; exact lt_of_lt_of_le hx (min_le_right _ _))
    have ey := h₂ (show dist y 4000 < δ₂ by
      rw [Real.dist_eq]; exact lt_of_lt_of_le hy (min_le_right _ _))
    have htri := dist_triangle (friction_factor x roughness diameter .swameeJain)
      (friction_factor 4000 roughness diameter .swameeJain)
      (friction_factor y roughness diameter .swameeJain)
    rw [dist_comm] at ey
    calc |friction_factor x roughness diameter .swameeJain -
        friction_factor y roughness diameter .swameeJain| =
        dist (friction_factor x roughness diameter .swameeJain)
          (friction_factor y roughness diameter .swameeJain) := (Real.dist_eq _ _).symm
      _ ≤ _ + _ := htri
      _ < tol / 2 + tol / 2 := add_lt_add ex ey
      _ = tol := by ring

/-- Witness for C5 (amended): commercial steel, DN50, tolerance `1e-3`. -/
theorem C5_boundary_continuity_witness :
    ∃ δ : ℝ, 0 < δ ∧
      (∀ x y : ℝ, |x - 2300| < δ → |y - 2300| < δ →
        |friction_factor x 0.000045 0.05 .swameeJain -
          friction_factor y 0.000045 0.05 .swameeJain| < 1e-3) ∧
      (∀ x y : ℝ, |x - 4000| < δ → |y - 4000| < δ →
        |friction_factor x 0.000045 0.05 .swameeJain -
          friction_factor y 0.000045 0.05 .swameeJain| < 1e-3) :=
  C5_boundary_continuity 0.000045 0.05 (by norm_num) (by norm_num) (by norm_num)
    1e-3 (by norm_num)

set_option maxHeartbeats 1000000 in
/-- Counterexample to C5 as stated ("for every roughness/diameter"): with
the pathological relative roughness `ε/D = 3.7·(1 - 5.74/4000^0.9) ≈ 3.69`
the Swamee–Jain log argument equals exactly 1 at `Re = 4000`; the
correlation has a pole there, the factor just above 4000 exceeds any bound,
and no δ-neighbourhood keeps the two-sided difference below `1e-3`. -/
theorem C5_counterexample :
    ¬ (∀ tol : ℝ, 0 < tol → ∃ δ : ℝ, 0 < δ ∧ ∀ x y : ℝ,
        |x - 4000| < δ → |y - 4000| < δ →
        |friction_factor x (3.7 * (1 - 5.74 / (4000 : ℝ) ^ (0.9 : ℝ))) 1 .swameeJain -
          friction_factor y (3.7 * (1 - 5.74 / (4000 : ℝ) ^ (0.9 : ℝ))) 1
            .swameeJain| < tol) := by
  intro hcl
  obtain ⟨δ, hδ, hδ2⟩ := hcl 1e-3 (by norm_num)
  set P := (4000 : ℝ) ^ (0.9 : ℝ) with hPdef
  have hP0 : 0 < P := Real.rpow_pos_of_pos (by norm_num) _
  have hP_lb : (1600 : ℝ) ≤ P := rpow09_4000_lb
  -- the probe point just above the pole
  set m := min δ 2 / 2 with hmdef
  have hm0 : 0 < m := by
    have := lt_min hδ (by norm_num : (0 : ℝ) < 2)
    rw [hmdef]
    linarith
  have hm1 : m ≤ 1 := by
    have := min_le_right δ 2
    rw [hmdef]
    linarith
  have hmδ : m < δ := by
    have := min_le_left δ 2
    rw [hmdef]
    linarith
  have hy4000 : (4000 : ℝ) < 4000 + m := by linarith
  have hy4001 : (4000 : ℝ) + m ≤ 4001 := by linarith
  set Qy := ((4000 : ℝ) + m) ^ (0.9 : ℝ) with hQydef
  have hQy0 : 0 < Qy := Real.rpow_pos_of_pos (by linarith) _
  have hPQy : P < Qy := Real.rpow_lt_rpow (by norm_num) hy4000 (by norm_num)
  -- value at the pole: the interpolation weight is 1 and the turbulent
  -- value is 0.25 / (log10 1)², i.e. 0.25 / 0 = 0 in the real model
  have hA4 : sjArg 4000 (3.7 * (1 - 5.74 / P)) 1 = 1 := by
    unfold sjArg
    rw [← hPdef]
    ring
  have hsj4 : friction_factor_turbulent 4000 (3.7 * (1 - 5.74 / P)) 1 .swameeJain = 0 := by
    rw [sj_eq, hA4]
    simp [Real.logb]
  have hF4 : friction_factor 4000 (3.7 * (1 - 5.74 / P)) 1 .swameeJain = 0 := by
    rw [ff4000, hsj4]
  -- the argument at the probe point: 1 - δy with 0 < δy ≤ 9e-7
  have hAy : sjArg (4000 + m) (3.7 * (1 - 5.74 / P)) 1 = 1 - (5.74 / P - 5.74 / Qy) := by
    unfold sjArg
    rw [← hQydef]
    ring
  have hdy_pos : 0 < 5.74 / P - 5.74 / Qy := by
    have h := div_lt_div_of_pos_left (by norm_num : (0 : ℝ) < 5.74) hP0 hPQy
    linarith
  have hfrac : (4000 : ℝ) / 4001 ≤ P / Qy := by
    have hr1 : ((4000 : ℝ) / (4000 + m)) ≤ ((4000 : ℝ) / (4000 + m)) ^ (0.9 : ℝ) := by
      have h := Real.rpow_le_rpow_of_exponent_ge
        (x := (4000 : ℝ) / (4000 + m)) (by positivity)
        ((div_le_one (by linarith)).mpr (by linarith)) (by norm_num : (0.9 : ℝ) ≤ 1)
      simpa [Real.rpow_one] using h
    have hdiv : ((4000 : ℝ) / (4000 + m)) ^ (0.9 : ℝ) = P / Qy := by
      rw [hPdef, hQydef, Real.div_rpow (by norm_num) (by linarith)]
    have h2 : (4000 : ℝ) / 4001 ≤ 4000 / (4000 + m) := by
      apply div_le_div_of_nonneg_left (by norm_num) (by linarith) hy4001
    calc (4000 : ℝ) / 4001 ≤ 4000 / (4000 + m) := h2
      _ ≤ ((4000 : ℝ) / (4000 + m)) ^ (0.9 : ℝ) := hr1
      _ = P / Qy := hdiv
  have hdy_ub : 5.74 / P - 5.74 / Qy ≤ 9e-7 := by
    have heq : 5.74 / P - 5.74 / Qy = 5.74 / P * (1 - P / Qy) := by
      field_simp
      ring
    have h1 : (1 : ℝ) - P / Qy ≤ 1 - 4000 / 4001 := by linarith
    have h1n : (0 : ℝ) ≤ 1 - P / Qy := by
      have : P / Qy ≤ 1 := (div_le_one hQy0).mpr hPQy.le
      linarith
    have h2 : (5.74 : ℝ) / P ≤ 5.74 / 1600 := by gcongr
    calc 5.74 / P - 5.74 / Qy = 5.74 / P * (1 - P / Qy) := heq
      _ ≤ 5.74 / 1600 * (1 - 4000 / 4001) := mul_le_mul h2 h1 h1n (by norm_num)
      _ ≤ 9e-7 := by norm_num
  have hAypos : 0 < sjArg (4000 + m) (3.7 * (1 - 5.74 / P)) 1 := by
    rw [hAy]; linarith
  have hAylt1 : sjArg (4000 + m) (3.7 * (1 - 5.74 / P)) 1 < 1 := by
    rw [hAy]; linarith
  have hlnAyneg : Real.log (sjArg (4000 + m) (3.7 * (1 - 5.74 / P)) 1) < 0 :=
    Real.log_neg hAypos hAylt1
  -- |log Ay| ≤ 1e-6
  have hlnAy : -Real.log (sjArg (4000 + m) (3.7 * (1 - 5.74 / P)) 1) ≤ 1e-6 := by
    have hx := Real.log_le_sub_one_of_pos (inv_pos.mpr hAypos)
    rw [Real.log_inv] at hx
    have hAyge : (0.999 : ℝ) ≤ sjArg (4000 + m) (3.7 * (1 - 5.74 / P)) 1 := by
      rw [hAy]; linarith
    have hgen : ∀ a : ℝ, a ≠ 0 → a⁻¹ - 1 = (1 - a) / a := by
      intro a ha
      field_simp
    have hinv := hgen _ (ne_of_gt hAypos)
    have hfr : (1 - sjArg (4000 + m) (3.7 * (1 - 5.74 / P)) 1) /
        sjArg (4000 + m) (3.7 * (1 - 5.74 / P)) 1 ≤ 9e-7 / 0.999 := by
      apply div_le_div (by norm_num) _ (by norm_num) hAyge
      rw [hAy]; linarith
    have : (9e-7 : ℝ) / 0.999 ≤ 1e-6 := by norm_num
    linarith
  -- log 10 ≥ 2
  have hl10 : (2 : ℝ) ≤ Real.log 10 := by
    rw [Real.le_log_iff_exp_le (by norm_num)]
    have he := Real.exp_one_lt_d9
    have h2 : Real.exp 2 = Real.exp 1 * Real.exp 1 := by
      rw [← Real.exp_add]
      norm_num
    nlinarith [Real.exp_pos 1]
  have hl10pos : (0 : ℝ) < Real.log 10 := by linarith
  -- the factor just above the pole is huge
  have hlogb2 : Real.logb 10 (sjArg (4000 + m) (3.7 * (1 - 5.74 / P)) 1) ^ 2 ≤
      2.5e-13 := by
    have habs : |Real.logb 10 (sjArg (4000 + m) (3.7 * (1 - 5.74 / P)) 1)| ≤ 5e-7 := by
      rw [Real.logb, abs_div, abs_of_pos hl10pos]
      have hnum : |Real.log (sjArg (4000 + m) (3.7 * (1 - 5.74 / P)) 1)| ≤ 1e-6 := by
        rw [abs_of_neg hlnAyneg]
        exact hlnAy
      calc |Real.log (sjArg (4000 + m) (3.7 * (1 - 5.74 / P)) 1)| / Real.log 10 ≤
          1e-6 / 2 := div_le_div (by norm_num) hnum (by norm_num) hl10
        _ = 5e-7 := by norm_num
    calc Real.logb 10 (sjArg (4000 + m) (3.7 * (1 - 5.74 / P)) 1) ^ 2 =
        |Real.logb 10 (sjArg (4000 + m) (3.7 * (1 - 5.74 / P)) 1)| ^ 2 :=
          (sq_abs _).symm
      _ ≤ (5e-7 : ℝ) ^ 2 := pow_le_pow_left₀ (abs_nonneg _) habs 2
      _ ≤ 2.5e-13 := by norm_num
  have hlogbne : Real.logb 10 (sjArg (4000 + m) (3.7 * (1 - 5.74 / P)) 1) ≠ 0 := by
    have : Real.logb 10 (sjArg (4000 + m) (3.7 * (1 - 5.74 / P)) 1) < 0 :=
      div_neg_of_neg_of_pos hlnAyneg hl10pos
    exact ne_of_lt this
  have hlogb2pos : 0 < Real.logb 10 (sjArg (4000 + m) (3.7 * (1 - 5.74 / P)) 1) ^ 2 :=
    pow_two_pos_of_ne_zero hlogbne
  have hFy : (1e-3 : ℝ) ≤
      friction_factor (4000 + m) (3.7 * (1 - 5.74 / P)) 1 .swameeJain := by
    rw [ff_turb _ _ _ _ hy4000, sj_eq]
    calc (1e-3 : ℝ) ≤ 0.25 / 2.5e-13 := by norm_num
      _ ≤ 0.25 / Real.logb 10 (sjArg (4000 + m) (3.7 * (1 - 5.74 / P)) 1) ^ 2 := by
          gcongr
  -- contradiction with the claimed uniform closeness
  have happ := hδ2 4000 (4000 + m) (by simpa using hδ)
    (by rw [show (4000 : ℝ) + m - 4000 = m by ring, abs_of_pos hm0]; exact hmδ)
  rw [hF4] at happ
  rw [zero_sub, abs_neg, abs_of_pos (by linarith : (0 : ℝ) <
    friction_factor (4000 + m) (3.7 * (1 - 5.74 / P)) 1 .swameeJain)] at happ
  linarith

end ThermalToolkit
